import Mathlib

/-!
# capture-page.mjs: a shallow embedding

The script `capture-page.mjs` parses a flat argument list, validates the
resulting record, derives an output path, launches a headless browser through
one of two channels, drives a page (navigation, optional auto-scroll, optional
delay, PNG or PDF export), closes the browser and reports the outcome.

Modelling conventions.

* A JavaScript string is the list of its UTF-16 code units (`JSString`); this
  is the unit on which `String.prototype.replace` with a regular expression
  without the `u` flag works, and in which `length` is measured.
* A JavaScript number is `JSNum`: `NaN`, the two infinities, or a finite value
  carried as a rational. Comparisons of a finite double with the literals
  `0` and `320` are exact, so the rational carries all that validation reads.
  The one floating-point operation whose rounding matters, the product
  `viewportHeight * 0.8`, is the exact product rounded to the nearest double
  (`roundDouble`).
* What the script obtains from the runtime and from `playwright-core`
  (`Number`, `toLowerCase`, `new URL`, `path.resolve`, `path.dirname`, the
  clock, and the outcome of every browser call) is a field of `Env`.
* The observable behaviour of a run is its trace, a list of `Event`.
-/

namespace CapturePage

/-! ## Strings -/

/-- A JavaScript string, as the sequence of its UTF-16 code units. -/
abbrev JSString := List Nat

/-- The code units of a source literal. Every string literal of the script is
ASCII, for which code unit and code point coincide. -/
def lit (s : String) : JSString := s.toList.map Char.toNat

/-- Code unit of the line feed, the line break `"\n"` of the script. -/
def LF : Nat := 10

/-- The method `Array.prototype.join` on an array of strings. -/
def join (sep : JSString) : List JSString → JSString
  | [] => []
  | [x] => x
  | x :: y :: rest => x ++ sep ++ join sep (y :: rest)

deriving instance DecidableEq for Except

/-- Truthiness of `argv[i + 1]`: `undefined` (past the end) and the empty
string are falsy, every other string is truthy. -/
def truthy : Option JSString → Bool
  | none => false
  | some [] => false
  | some (_ :: _) => true

/-! ## Numbers -/

/-- A JavaScript number. -/
inductive JSNum where
  | nan
  | posInf
  | negInf
  | fin (q : ℚ)
  deriving DecidableEq

namespace JSNum

/-- The function `Number.isFinite` on a value that is a number. -/
def isFinite : JSNum → Bool
  | fin _ => true
  | _ => false

/-- The relational operator `<` on numbers; `NaN` compares false with everything. -/
def lt : JSNum → JSNum → Bool
  | nan, _ => false
  | _, nan => false
  | fin a, fin b => decide (a < b)
  | fin _, posInf => true
  | fin _, negInf => false
  | posInf, _ => false
  | negInf, negInf => false
  | negInf, _ => true

/-- The relational operator `<=` on numbers. -/
def le : JSNum → JSNum → Bool
  | nan, _ => false
  | _, nan => false
  | fin a, fin b => decide (a ≤ b)
  | fin _, posInf => true
  | fin _, negInf => false
  | posInf, posInf => true
  | posInf, _ => false
  | negInf, _ => true

/-- The relational operator `>`: `a > b` is `b < a`. -/
def gt (a b : JSNum) : Bool := lt b a

end JSNum

/-! ## The argument parser -/

/-- The record built by `parseArgs`. -/
structure Parsed where
  url : JSString
  format : JSString
  output : JSString
  delay : JSNum
  timeout : JSNum
  width : JSNum
  height : JSNum
  autoScroll : Bool
  help : Bool
  deriving DecidableEq

/-- The initial value of `parsed` in `parseArgs`. -/
def defaults : Parsed where
  url := []
  format := lit "png"
  output := []
  delay := .fin 2
  timeout := .fin 60
  width := .fin 1440
  height := .fin 2200
  autoScroll := true
  help := false

/-- The runtime conversions `parseArgs` calls: `Number(next)` and
`next.toLowerCase()`. -/
structure Conv where
  toNumber : JSString → JSNum
  toLowerCase : JSString → JSString

/-- One iteration of the `for` loop of `parseArgs` at index `i`, with
`key = argv[i]` and `next = argv[i + 1]` (`none` when `i + 1` is past the
end). Returns the updated record and whether the iteration executed
`i += 1`, that is, whether `argv[i + 1]` was consumed as a value. -/
def parseStep (cv : Conv) (key : JSString) (next : Option JSString)
    (parsed : Parsed) : Parsed × Bool :=
  if key = lit "--help" ∨ key = lit "-h" then
    ({ parsed with help := true }, false)
  else if key = lit "--no-auto-scroll" then
    ({ parsed with autoScroll := false }, false)
  else if key = lit "--url" ∧ truthy next = true then
    ({ parsed with url := next.getD [] }, true)
  else if key = lit "--format" ∧ truthy next = true then
    ({ parsed with format := cv.toLowerCase (next.getD []) }, true)
  else if key = lit "--output" ∧ truthy next = true then
    ({ parsed with output := next.getD [] }, true)
  else if key = lit "--delay" ∧ truthy next = true then
    ({ parsed with delay := cv.toNumber (next.getD []) }, true)
  else if key = lit "--timeout" ∧ truthy next = true then
    ({ parsed with timeout := cv.toNumber (next.getD []) }, true)
  else if key = lit "--width" ∧ truthy next = true then
    ({ parsed with width := cv.toNumber (next.getD []) }, true)
  else if key = lit "--height" ∧ truthy next = true then
    ({ parsed with height := cv.toNumber (next.getD []) }, true)
  else
    (parsed, false)

/-- The `for` loop of `parseArgs` over the remaining arguments `argv[i..]`.
`skip = true` means the previous iteration executed `i += 1`, so the head of
the list is stepped over without being read as a key. -/
def parseLoop (cv : Conv) : List JSString → Bool → Parsed → Parsed
  | [], _, parsed => parsed
  | _ :: rest, true, parsed => parseLoop cv rest false parsed
  | key :: rest, false, parsed =>
    parseLoop cv rest (parseStep cv key rest.head? parsed).2
      (parseStep cv key rest.head? parsed).1

/-- The function `parseArgs(argv)`. -/
def parseArgs (cv : Conv) (argv : List JSString) : Parsed :=
  parseLoop cv argv false defaults

/-- The seven flags that expect a value. -/
def valueFlags : List JSString :=
  [lit "--url", lit "--format", lit "--output", lit "--delay", lit "--timeout",
   lit "--width", lit "--height"]

/-- Whether the iteration reading `key` with lookahead `next` executes
`i += 1`: `key` is one of the value flags and `next` is truthy. -/
def takesValue (key : JSString) (next : Option JSString) : Bool :=
  decide (key ∈ valueFlags) && truthy next

/-- Whether the element at index `i` of the remaining arguments is read as
`key` by an iteration of the loop, rather than stepped over as the value of
the flag before it; it follows the index arithmetic of `parseLoop` (`skip` as
there). -/
def readAsKey : List JSString → Bool → Nat → Bool
  | [], _, _ => false
  | _ :: _, skip, 0 => !skip
  | _ :: rest, true, i + 1 => readAsKey rest false i
  | key :: rest, false, i + 1 => readAsKey rest (takesValue key rest.head?) i

/-! ## Output path -/

/-- The character class `[a-zA-Z0-9._-]` of `safeName`, on code units. -/
def allowed (c : Nat) : Bool :=
  (97 ≤ c && c ≤ 122) || (65 ≤ c && c ≤ 90) || (48 ≤ c && c ≤ 57) ||
    c == 46 || c == 95 || c == 45

/-- The function `safeName(input)`: `input.replace(/[^a-zA-Z0-9._-]/g, "_")`. The regular
expression has no `u` flag, so it matches single code units. -/
def safeName (input : JSString) : JSString :=
  input.map fun c => if allowed c then c else 95


/-- The parts of a `URL` object the script reads. -/
structure URLRecord where
  /-- The value of `toString()`. -/
  href : JSString
  hostname : JSString
  deriving DecidableEq

/-- A browser session, as returned by `chromium.launch`. -/
structure Browser where
  handle : Nat
  deriving DecidableEq

/-- What one run obtains from outside the script: the runtime conversions, the
URL parser, the clock, `node:path`, and the outcome of each call to the file
system and to the browser library. A failing call carries its `err.message`. -/
structure Env where
  cv : Conv
  /-- The constructor call `new URL(s)`; an error when it throws. -/
  parseURL : JSString → Except JSString URLRecord
  /-- The value of `new Date().toISOString()` at the instant of the call. -/
  nowISO : JSString
  /-- The value of `path.resolve` on the fixed captures directory literal: an absolute,
  normalised directory path. -/
  capturesDir : JSString
  /-- Code unit of `path.sep`. -/
  sep : Nat
  /-- The call `path.resolve(p)`. -/
  resolve : JSString → JSString
  /-- The call `path.dirname(p)`. -/
  dirname : JSString → JSString
  /-- The call `fs.mkdirSync(dir, { recursive: true })`. -/
  mkdir : Except JSString Unit
  /-- The call `chromium.launch({ headless: true, channel })`, by channel. -/
  launch : JSString → Except JSString Browser
  newContext : Except JSString Unit
  newPage : Except JSString Unit
  goto : Except JSString Unit
  /-- The call `page.evaluate` of the scroll loop in `autoScroll`. -/
  scrollDown : Except JSString Unit
  /-- The call `page.waitForTimeout(400)` in `autoScroll`. -/
  scrollPause : Except JSString Unit
  /-- The call `page.evaluate(() => window.scrollTo(0, 0))` in `autoScroll`. -/
  scrollTop : Except JSString Unit
  /-- The call `page.waitForTimeout(args.delay * 1000)`. -/
  delayPause : Except JSString Unit
  screenshot : Except JSString Unit
  emulateMedia : Except JSString Unit
  pdf : Except JSString Unit
  close : Except JSString Unit

/-- The `timestamp` of `defaultOutputPath`: the ISO string with every `:`
(58) and `.` (46) replaced by `-` (45). -/
def timestamp (iso : JSString) : JSString :=
  iso.map fun c => if c = 58 ∨ c = 46 then 45 else c

/-- The `host` of `defaultOutputPath`: `safeName(parsed.hostname || "page")`. -/
def hostPart (hostname : JSString) : JSString :=
  safeName (if hostname = [] then lit "page" else hostname)

/-- The `fileName` of `defaultOutputPath`. -/
def defaultFileName (hostname iso format : JSString) : JSString :=
  hostPart hostname ++ lit "-" ++ timestamp iso ++ lit "." ++ format

/-- The function `defaultOutputPath(urlString, format)`. `path.join(capturesDir, fileName)`
is `capturesDir`, the separator and `fileName`: `capturesDir` comes out of
`path.resolve`, and `fileName` is neither `.` nor `..` and holds no separator
for the formats `main` lets through. Fails when `new URL` throws. -/
def defaultOutputPath (env : Env) (urlString format : JSString) :
    Except JSString JSString :=
  match env.parseURL urlString with
  | .error m => .error m
  | .ok parsed =>
    .ok (env.capturesDir ++ [env.sep] ++ defaultFileName parsed.hostname env.nowISO format)

/-! ## Auto-scroll -/

/-- Rounding of a real to the nearest integer, a tie going to the even one. -/
def roundNearestEven (y : ℚ) : ℤ :=
  if y - ⌊y⌋ < 1 / 2 then ⌊y⌋
  else if 1 / 2 < y - ⌊y⌋ then ⌊y⌋ + 1
  else if ⌊y⌋ % 2 = 0 then ⌊y⌋
  else ⌊y⌋ + 1

/-- The double nearest to the real `x`, as IEEE 754 binary64 arithmetic
rounds every result (to nearest, ties to even): with `e` the exponent of the
binade of `x`, `2^e <= |x| < 2^(e+1)`, and not below the least normal exponent
`-1022`, the doubles around `x` are the multiples of `2^(e-52)`, and `x` is
rounded to the nearest of them. Overflow to an infinity (a result of magnitude
`2^1024` or more) is not represented; the product of a finite double with
`0.8` is smaller in magnitude than that double and never overflows. -/
def roundDouble (x : ℚ) : ℚ :=
  (roundNearestEven (x * (2 : ℚ) ^ (52 - max (Int.log 2 |x|) (-1022))) : ℚ) *
    (2 : ℚ) ^ (max (Int.log 2 |x|) (-1022) - 52)

/-- The numeric literal `0.8`: the double nearest to `4/5`. -/
def point8 : ℚ := roundDouble (4 / 5)

/-- The product `viewportHeight * 0.8` of two doubles: the exact product,
rounded to the nearest double. -/
def times08 (viewportHeight : ℚ) : ℚ := roundDouble (viewportHeight * point8)

/-- The `step` of `autoScroll`: `Math.max(400, Math.floor(viewportHeight * 0.8))`,
for a finite `viewportHeight`. -/
def scrollStep (viewportHeight : ℚ) : ℤ :=
  max 400 ⌊times08 viewportHeight⌋

/-- The interval callback of `autoScroll`, run at most `fuel` times from the
cumulative distance `total`: each run scrolls by `stepPx`, adds `stepPx` to
`total`, and clears the timer when `total >= max`. The result is the number of
`scrollBy` calls made and the final `total`; `none` when the timer is still
running after `fuel` callbacks. Scroll heights are integers far below `2^53`,
so the additions are exact. -/
def scrollLoop (stepPx max : ℤ) : Nat → ℤ → Option (Nat × ℤ)
  | 0, _ => none
  | fuel + 1, total =>
    if total + stepPx ≥ max then some (1, total + stepPx)
    else (scrollLoop stepPx max fuel (total + stepPx)).map fun r => (r.1 + 1, r.2)

/-- A call `autoScroll` makes on the page. -/
inductive PageOp where
  | scrollBy (dy : ℤ)
  | waitForTimeout (ms : Nat)
  | scrollTo (x y : ℤ)
  deriving DecidableEq

/-- The function `autoScroll(page, viewportHeight)` on a page whose scrollable height
(`Math.max(document.body.scrollHeight, document.documentElement.scrollHeight)`)
is `scrollHeight`: the page calls it makes, in order; `none` when the scroll
loop has not stopped within `fuel` callbacks. -/
def autoScroll (viewportHeight : ℚ) (scrollHeight : ℤ) (fuel : Nat) :
    Option (List PageOp) :=
  (scrollLoop (scrollStep viewportHeight) scrollHeight fuel 0).map fun r =>
    List.replicate r.1 (.scrollBy (scrollStep viewportHeight)) ++
      [.waitForTimeout 400, .scrollTo 0 0]

/-! ## Events and the browser launcher -/

/-- An observable action of a run, in the order the script performs it. -/
inductive Event where
  /-- The call `printHelp()`: the usage text on standard output. -/
  | usage
  /-- The call `console.log(line)`. -/
  | stdout (line : JSString)
  /-- The call `console.error(line)`. -/
  | stderr (line : JSString)
  | mkdir (dir : JSString)
  /-- The call `chromium.launch` with the given channel. -/
  | launch (channel : JSString)
  | newContext (width height : JSNum)
  | newPage
  /-- The call `page.goto(href, ...)` with `timeout: seconds * 1000`. -/
  | goto (href : JSString) (seconds : JSNum)
  /-- The scroll loop of `autoScroll(page, viewportHeight)`. -/
  | scrollDown (viewportHeight : JSNum)
  | scrollPause
  | scrollTop
  /-- The call `page.waitForTimeout(seconds * 1000)`. -/
  | delayPause (seconds : JSNum)
  | screenshot (path : JSString)
  | emulateMedia
  | pdf (path : JSString)
  /-- The call `browser.close()`. -/
  | close (browser : Browser)
  /-- The process ends with this exit status. -/
  | exit (code : Nat)
  deriving DecidableEq

/-- An entry of `attempts` in `launchBrowser`. -/
structure Attempt where
  label : JSString
  channel : JSString

/-- The `attempts` array of `launchBrowser`. -/
def attempts : List Attempt :=
  [⟨lit "Microsoft Edge", lit "msedge"⟩, ⟨lit "Google Chrome", lit "chrome"⟩]

/-- The first line of the message `launchBrowser` throws. -/
def launchInstruction : JSString :=
  lit "Unable to launch a Chromium browser. Ensure Edge or Chrome is installed."

/-- The `for` loop of `launchBrowser` over the remaining attempts, with the
`failures` collected so far: the launches made, and the session of the first
one that succeeds or else all failure lines. -/
def launchLoop (launch : JSString → Except JSString Browser) :
    List Attempt → List JSString → List Event × Except (List JSString) Browser
  | [], failures => ([], .error failures)
  | attempt :: rest, failures =>
    match launch attempt.channel with
    | .ok browser => ([.launch attempt.channel], .ok browser)
    | .error message =>
      let r := launchLoop launch rest (failures ++ [attempt.label ++ lit ": " ++ message])
      (.launch attempt.channel :: r.1, r.2)

/-- The function `launchBrowser()`: the launches made, and the session or the message of
the thrown `Error`. -/
def launchBrowser (launch : JSString → Except JSString Browser) :
    List Event × Except JSString Browser :=
  match launchLoop launch attempts [] with
  | (tr, .ok browser) => (tr, .ok browser)
  | (tr, .error failures) =>
    (tr, .error (launchInstruction ++ [LF] ++ join [LF] failures))

/-! ## The entry point -/

/-- How the `async` function `main` ends: its promise resolves, it rejects
with an `Error` of the given message, or `process.exit(code)` ran inside it. -/
inductive Completion where
  | returned
  | threw (message : JSString)
  | exited (code : Nat)
  deriving DecidableEq

/-- The four numeric checks of `main`, in order; the message of the `Error`
thrown by the first one that fails. -/
def validateNumbers (args : Parsed) : Except JSString Unit :=
  if !args.delay.isFinite || args.delay.lt (.fin 0) then
    .error (lit "--delay must be a non-negative number")
  else if !args.timeout.isFinite || args.timeout.le (.fin 0) then
    .error (lit "--timeout must be a positive number")
  else if !args.width.isFinite || args.width.lt (.fin 320) then
    .error (lit "--width must be at least 320")
  else if !args.height.isFinite || args.height.lt (.fin 320) then
    .error (lit "--height must be at least 320")
  else
    .ok ()

/-- The checks of `main` from `if (!args.url)` to the last numeric check: the
events they produce, and `validatedUrl` or the message of the thrown `Error`. -/
def validate (env : Env) (args : Parsed) : List Event × Except JSString URLRecord :=
  if args.url = [] then
    ([.usage], .error (lit "Missing required argument: --url"))
  else
    match env.parseURL args.url with
    | .error _ => ([], .error (lit "Invalid URL: " ++ args.url))
    | .ok validatedUrl =>
      if ¬ (args.format = lit "png" ∨ args.format = lit "pdf") then
        ([], .error (lit "--format must be one of: png, pdf"))
      else
        match validateNumbers args with
        | .error message => ([], .error message)
        | .ok () => ([], .ok validatedUrl)

/-- Everything `main` does after the help check and before `launchBrowser`:
validation, `outputPath`, and `fs.mkdirSync` of its directory. -/
def prepare (env : Env) (args : Parsed) :
    List Event × Except JSString (URLRecord × JSString) :=
  match validate env args with
  | (tr, .error message) => (tr, .error message)
  | (tr, .ok validatedUrl) =>
    match (if args.output ≠ [] then .ok args.output
           else defaultOutputPath env validatedUrl.href args.format) with
    | .error message => (tr, .error message)
    | .ok path =>
      match env.mkdir with
      | .error message =>
        (tr ++ [.mkdir (env.dirname (env.resolve path))], .error message)
      | .ok () =>
        (tr ++ [.mkdir (env.dirname (env.resolve path))],
          .ok (validatedUrl, env.resolve path))

/-- A sequence of awaited calls, each with the event it produces and its
outcome: the calls are made in order up to and including the first that
throws. -/
def runSteps : List (Event × Except JSString Unit) → List Event × Except JSString Unit
  | [] => ([], .ok ())
  | (e, .ok ()) :: rest => (e :: (runSteps rest).1, (runSteps rest).2)
  | (e, .error message) :: _ => ([e], .error message)

/-- The body of the `try` block of `main`, as the sequence of its calls. -/
def captureSteps (env : Env) (args : Parsed) (href outputPath : JSString) :
    List (Event × Except JSString Unit) :=
  [(.newContext args.width args.height, env.newContext),
   (.newPage, env.newPage),
   (.goto href args.timeout, env.goto)] ++
  (if args.autoScroll then
    [(.scrollDown args.height, env.scrollDown),
     (.scrollPause, env.scrollPause),
     (.scrollTop, env.scrollTop)]
   else []) ++
  (if args.delay.gt (.fin 0) then [(.delayPause args.delay, env.delayPause)] else []) ++
  (if args.format = lit "png" then [(.screenshot outputPath, env.screenshot)]
   else [(.emulateMedia, env.emulateMedia), (.pdf outputPath, env.pdf)]) ++
  [(.stdout outputPath, .ok ())]

/-- The `try { ... } finally { await browser.close(); }` of `main`: the body,
then `browser.close()` whatever the body did; an error thrown by `close`
replaces the body's completion. -/
def session (env : Env) (args : Parsed) (href outputPath : JSString)
    (browser : Browser) : List Event × Completion :=
  let body := runSteps (captureSteps env args href outputPath)
  (body.1 ++ [.close browser],
    match env.close with
    | .error message => .threw message
    | .ok () =>
      match body.2 with
      | .ok () => .returned
      | .error message => .threw message)

/-- The body of `main` once `args` is parsed. -/
def mainWith (env : Env) (args : Parsed) : List Event × Completion :=
  if args.help then
    ([.usage], .exited 0)
  else
    match prepare env args with
    | (tr, .error message) => (tr, .threw message)
    | (tr, .ok (validatedUrl, outputPath)) =>
      match launchBrowser env.launch with
      | (ltr, .error message) => (tr ++ ltr, .threw message)
      | (ltr, .ok browser) =>
        (tr ++ ltr ++ (session env args validatedUrl.href outputPath browser).1,
          (session env args validatedUrl.href outputPath browser).2)

/-- The function `main()` on the arguments `process.argv.slice(2)`. -/
def main (env : Env) (argv : List JSString) : List Event × Completion :=
  mainWith env (parseArgs env.cv argv)

/-- The tag `console.error` puts before `err.message`. -/
def toolTag : JSString := lit "[capture-page] "

/-- What the process does with the completion of `main`: the `catch` handler
prints the tagged message and exits with status 1; a resolved promise lets the
process end with status 0. -/
def report : List Event × Completion → List Event
  | (tr, .returned) => tr ++ [.exit 0]
  | (tr, .threw message) => tr ++ [.stderr (toolTag ++ message), .exit 1]
  | (tr, .exited code) => tr ++ [.exit code]

/-- The whole script, `main().catch(...)`: the trace of the run. -/
def run (env : Env) (argv : List JSString) : List Event :=
  report (main env argv)

/-- Whether an event is a call of `browser.close`. -/
def Event.isClose : Event → Bool
  | .close _ => true
  | _ => false

/-- Whether an event is a call of `chromium.launch`. -/
def Event.isLaunch : Event → Bool
  | .launch _ => true
  | _ => false

/-- Whether an event writes to standard error. -/
def Event.isStderr : Event → Bool
  | .stderr _ => true
  | _ => false

/-- Whether an event writes a line to standard output with `console.log`. -/
def Event.isStdout : Event → Bool
  | .stdout _ => true
  | _ => false

/-- Whether an event ends the process. -/
def Event.isExit : Event → Bool
  | .exit _ => true
  | _ => false

/-- Whether the run on `args` reaches `launchBrowser` and gets a session from
it: help is not requested, the steps before the launch all pass, and one of
the two launches succeeds. -/
def launched (env : Env) (args : Parsed) : Bool :=
  !args.help &&
    (match (prepare env args).2 with
     | .ok _ => true
     | .error _ => false) &&
    (match (launchBrowser env.launch).2 with
     | .ok _ => true
     | .error _ => false)

/-! ## Sample environments -/

/-- A run at a fixed instant in which every outside call succeeds and Edge
launches. `Number`, `toLowerCase` and `new URL` are given on the inputs the
examples use: the numerals `0`, `1`, `319` and `320` (any other text stands
for a non-numeric string), lower-case text, and three URLs. -/
def sampleEnv : Env where
  cv :=
    ⟨fun s =>
      if s = lit "0" then .fin 0
      else if s = lit "1" then .fin 1
      else if s = lit "319" then .fin 319
      else if s = lit "320" then .fin 320
      else .nan,
     fun s => s⟩
  parseURL := fun s =>
    if s = lit "https://example.com" ∨ s = lit "https://example.com/" then
      .ok ⟨lit "https://example.com/", lit "example.com"⟩
    else if s = lit "file:///tmp/a.html" then
      .ok ⟨lit "file:///tmp/a.html", []⟩
    else .error (lit "Invalid URL")
  nowISO := lit "2026-11-04T12:34:56.789Z"
  capturesDir := lit "C:/captures"
  sep := 47
  resolve := fun p => p
  dirname := fun _ => lit "C:/captures"
  mkdir := .ok ()
  launch := fun _ => .ok ⟨1⟩
  newContext := .ok ()
  newPage := .ok ()
  goto := .ok ()
  scrollDown := .ok ()
  scrollPause := .ok ()
  scrollTop := .ok ()
  delayPause := .ok ()
  screenshot := .ok ()
  emulateMedia := .ok ()
  pdf := .ok ()
  close := .ok ()

/-- As `sampleEnv`, but neither browser channel launches. -/
def noBrowserEnv : Env :=
  { sampleEnv with
    launch := fun channel =>
      if channel = lit "msedge" then .error (lit "msedge not found")
      else .error (lit "chrome not found") }

/-- As `sampleEnv`, but navigation fails. -/
def gotoFailsEnv : Env :=
  { sampleEnv with goto := .error (lit "Timeout 60000ms exceeded.") }

/-- The record of `--url https://example.com` with all other fields at their
defaults. -/
def exampleArgs : Parsed := { defaults with url := lit "https://example.com" }

/-- The double written `501.24999999999994`, that is `501.25 - 2^-44`: a
viewport height that the validation accepts and that is not an integer. -/
def fractionalHeight : ℚ := 8818083254763519 / 17592186044416

/-- As `sampleEnv`, but `browser.close()` fails. -/
def closeFailsEnv : Env :=
  { sampleEnv with close := .error (lit "Target closed") }

/-! ## Theorems -/

theorem allowed_iff (c : Nat) :
    allowed c = true ↔
      ('a'.toNat ≤ c ∧ c ≤ 'z'.toNat) ∨ ('A'.toNat ≤ c ∧ c ≤ 'Z'.toNat) ∨
        ('0'.toNat ≤ c ∧ c ≤ '9'.toNat) ∨ c = '.'.toNat ∨ c = '_'.toNat ∨ c = '-'.toNat := by
  have ha : 'a'.toNat = 97 := by decide
  have hz : 'z'.toNat = 122 := by decide
  have hA : 'A'.toNat = 65 := by decide
  have hZ : 'Z'.toNat = 90 := by decide
  have h0 : '0'.toNat = 48 := by decide
  have h9 : '9'.toNat = 57 := by decide
  have hd : '.'.toNat = 46 := by decide
  have hu : '_'.toNat = 95 := by decide
  have hm : '-'.toNat = 45 := by decide
  rw [ha, hz, hA, hZ, h0, h9, hd, hu, hm]
  simp [allowed, or_assoc]

/-- C4. For every string `s`, `safeName s` has the length of `s`; at every
index it holds the code unit of `s` when that lies in `[A-Za-z0-9._-]` and an
underscore otherwise; and every code unit of it lies in `[A-Za-z0-9._-]`. -/
theorem safeName_spec (s : JSString) :
    (safeName s).length = s.length ∧
    (∀ (i c : Nat), s[i]? = some c →
      (safeName s)[i]? = some (if allowed c = true then c else '_'.toNat)) ∧
    (∀ c ∈ safeName s, allowed c = true) ∧
    (∀ c, allowed c = true ↔
      ('a'.toNat ≤ c ∧ c ≤ 'z'.toNat) ∨ ('A'.toNat ≤ c ∧ c ≤ 'Z'.toNat) ∨
        ('0'.toNat ≤ c ∧ c ≤ '9'.toNat) ∨ c = '.'.toNat ∨ c = '_'.toNat ∨ c = '-'.toNat) := by
  refine ⟨by simp [safeName], ?_, ?_, allowed_iff⟩
  · intro i c h
    have hu : '_'.toNat = 95 := by decide
    simp [safeName, List.getElem?_map, h, hu]
  · intro c hc
    simp only [safeName, List.mem_map] at hc
    obtain ⟨a, _, rfl⟩ := hc
    by_cases ha : allowed a = true
    · simp [ha]
    · have hf : allowed a = false := by simpa using ha
      rw [if_neg (by simp [hf])]
      decide

/-- C5 as stated fails. `file:///tmp/a.html` is a well-formed URL whose host is
empty; the file name of its default path starts with `page`, whereas
`safeName` of the empty host followed by `-` starts with `-`. -/
theorem defaultOutputPath_empty_host :
    sampleEnv.parseURL (lit "file:///tmp/a.html") = .ok ⟨lit "file:///tmp/a.html", []⟩ ∧
    defaultOutputPath sampleEnv (lit "file:///tmp/a.html") (lit "png") =
      .ok (lit "C:/captures/page-2026-11-04T12-34-56-789Z.png") ∧
    lit "C:/captures/page-2026-11-04T12-34-56-789Z.png" ≠
      lit "C:/captures/" ++ (safeName [] ++ lit "-" ++ lit "2026-11-04T12-34-56-789Z" ++
        lit "." ++ lit "png") := by
  refine ⟨by decide, by decide, by decide⟩

/-- C5, amended. For a well-formed URL `u` with host `h`, a format `f` and the
clock reading `env.nowISO`, `defaultOutputPath` returns the captures
directory, the separator and the file name
`safeName (h, or "page" when h is empty) + "-" + (the ISO string with ':' and
'.' replaced by '-') + "." + f`; the path ends with `"." + f`; and it is the
same in every environment that agrees on the parse of `u`, the clock, the
directory and the separator. -/
theorem defaultOutputPath_spec (env : Env) (u f : JSString) (r : URLRecord)
    (hf : f = lit "png" ∨ f = lit "pdf") (hu : env.parseURL u = .ok r) :
    defaultOutputPath env u f =
      .ok (env.capturesDir ++ [env.sep] ++
        (safeName (if r.hostname = [] then lit "page" else r.hostname) ++ lit "-" ++
          env.nowISO.map (fun c => if c = ':'.toNat ∨ c = '.'.toNat then '-'.toNat else c) ++
          lit "." ++ f)) ∧
    (∀ p, defaultOutputPath env u f = .ok p → (lit "." ++ f) <:+ p) ∧
    (f = lit "png" → ∀ p, defaultOutputPath env u f = .ok p → lit ".png" <:+ p) ∧
    (f = lit "pdf" → ∀ p, defaultOutputPath env u f = .ok p → lit ".pdf" <:+ p) ∧
    (∀ env2 : Env, env2.parseURL u = env.parseURL u → env2.nowISO = env.nowISO →
      env2.capturesDir = env.capturesDir → env2.sep = env.sep →
      defaultOutputPath env2 u f = defaultOutputPath env u f) := by
  have _ := hf
  have hc : ':'.toNat = 58 := by decide
  have hd : '.'.toNat = 46 := by decide
  have hm : '-'.toNat = 45 := by decide
  have hval : defaultOutputPath env u f =
      .ok (env.capturesDir ++ [env.sep] ++
        (safeName (if r.hostname = [] then lit "page" else r.hostname) ++ lit "-" ++
          env.nowISO.map (fun c => if c = ':'.toNat ∨ c = '.'.toNat then '-'.toNat else c) ++
          lit "." ++ f)) := by
    simp only [defaultOutputPath, hu, defaultFileName, hostPart, timestamp, hc, hd, hm]
  have hsuf : ∀ p, defaultOutputPath env u f = .ok p → (lit "." ++ f) <:+ p := by
    intro p hp
    rw [hval] at hp
    injection hp with hp
    subst hp
    refine ⟨env.capturesDir ++ [env.sep] ++
      (safeName (if r.hostname = [] then lit "page" else r.hostname) ++ lit "-" ++
        env.nowISO.map (fun c => if c = ':'.toNat ∨ c = '.'.toNat then '-'.toNat else c)), ?_⟩
    simp [List.append_assoc]
  refine ⟨hval, hsuf, ?_, ?_, ?_⟩
  · intro h p hp
    have := hsuf p hp
    rw [h] at this
    exact this
  · intro h p hp
    have := hsuf p hp
    rw [h] at this
    exact this
  · intro env2 h1 h2 h3 h4
    simp only [defaultOutputPath, h1, h2, h3, h4]

/-- At the URL `https://example.com` and the format `png` in `sampleEnv`, the
default path is the captures directory followed by
`example.com-<timestamp>.png`, and it ends with `.png`. -/
theorem defaultOutputPath_spec_witness :
    defaultOutputPath sampleEnv (lit "https://example.com") (lit "png") =
      .ok (lit "C:/captures/example.com-2026-11-04T12-34-56-789Z.png") ∧
    lit ".png" <:+ lit "C:/captures/example.com-2026-11-04T12-34-56-789Z.png" := by
  have h := defaultOutputPath_spec sampleEnv (lit "https://example.com") (lit "png")
    ⟨lit "https://example.com/", lit "example.com"⟩ (Or.inl rfl) (by decide)
  have h1 : defaultOutputPath sampleEnv (lit "https://example.com") (lit "png") =
      .ok (lit "C:/captures/example.com-2026-11-04T12-34-56-789Z.png") := by
    rw [h.1]; decide
  exact ⟨h1, h.2.2.1 rfl _ h1⟩

theorem launchBrowser_first (launch : JSString → Except JSString Browser) (b : Browser)
    (h1 : launch (lit "msedge") = .ok b) :
    launchBrowser launch = ([.launch (lit "msedge")], .ok b) := by
  simp [launchBrowser, launchLoop, attempts, h1]

theorem launchBrowser_second (launch : JSString → Except JSString Browser) (e1 : JSString)
    (b : Browser) (h1 : launch (lit "msedge") = .error e1)
    (h2 : launch (lit "chrome") = .ok b) :
    launchBrowser launch = ([.launch (lit "msedge"), .launch (lit "chrome")], .ok b) := by
  simp [launchBrowser, launchLoop, attempts, h1, h2]

theorem launchBrowser_none (launch : JSString → Except JSString Browser) (e1 e2 : JSString)
    (h1 : launch (lit "msedge") = .error e1) (h2 : launch (lit "chrome") = .error e2) :
    launchBrowser launch =
      ([.launch (lit "msedge"), .launch (lit "chrome")],
        .error (launchInstruction ++ [LF] ++ (lit "Microsoft Edge: " ++ e1) ++ [LF] ++
          (lit "Google Chrome: " ++ e2))) := by
  have hE : lit "Microsoft Edge: " = lit "Microsoft Edge" ++ lit ": " := by decide
  have hC : lit "Google Chrome: " = lit "Google Chrome" ++ lit ": " := by decide
  simp [launchBrowser, launchLoop, attempts, h1, h2, join, hE, hC]

/-- C3. Whatever the two launches do, `launchBrowser` launches `msedge` first
and returns its session without trying `chrome` when it succeeds; otherwise it
launches `chrome` once and returns its session when that succeeds; otherwise
it fails with the instruction line followed by the two lines
`Microsoft Edge: <reason>` and `Google Chrome: <reason>`, in that order. -/
theorem launchBrowser_spec (launch : JSString → Except JSString Browser) :
    launchBrowser launch =
      match launch (lit "msedge"), launch (lit "chrome") with
      | .ok b, _ => ([.launch (lit "msedge")], .ok b)
      | .error _, .ok b => ([.launch (lit "msedge"), .launch (lit "chrome")], .ok b)
      | .error e1, .error e2 =>
        ([.launch (lit "msedge"), .launch (lit "chrome")],
          .error (lit "Unable to launch a Chromium browser. Ensure Edge or Chrome is installed."
            ++ lit "\n" ++ (lit "Microsoft Edge: " ++ e1) ++ lit "\n" ++
            (lit "Google Chrome: " ++ e2))) := by
  have hlf : lit "\n" = [LF] := by decide
  rcases h1 : launch (lit "msedge") with e1 | b1
  · rcases h2 : launch (lit "chrome") with e2 | b2
    · rw [launchBrowser_none launch e1 e2 h1 h2, hlf]
      rfl
    · rw [launchBrowser_second launch e1 b2 h1 h2]
  · rw [launchBrowser_first launch b1 h1]

theorem scrollStep_ge (h : ℚ) : 400 ≤ scrollStep h := by
  unfold scrollStep
  exact le_max_left _ _

/-- When the `n`-th callback is the first to reach `max`, the loop stops there,
given at least `n` callbacks. -/
theorem scrollLoop_stops (s m : ℤ) :
    ∀ (n : ℕ), 1 ≤ n → ∀ (total : ℤ) (fuel : ℕ), n ≤ fuel →
      (∀ k : ℕ, 1 ≤ k → k < n → total + k * s < m) → m ≤ total + n * s →
      scrollLoop s m fuel total = some (n, total + n * s) := by
  intro n
  induction n with
  | zero => intro h; omega
  | succ n ih =>
    intro _ total fuel hfuel hbelow hreach
    obtain ⟨fuel, rfl⟩ : ∃ f, fuel = f + 1 := ⟨fuel - 1, by omega⟩
    by_cases hn : n = 0
    · subst hn
      have h1 : total + s ≥ m := by simpa using hreach
      simp [scrollLoop, h1]
    · have hlt : ¬ (total + s ≥ m) := by
        have := hbelow 1 le_rfl (by omega)
        simp only [Nat.cast_one, one_mul] at this
        omega
      have hrec := ih (by omega) (total + s) fuel (by omega)
        (by
          intro k hk1 hk2
          have := hbelow (k + 1) (by omega) (by omega)
          push_cast at this
          linarith)
        (by push_cast at hreach; linarith)
      simp only [scrollLoop, hlt, if_false, hrec, Option.map_some']
      congr 2
      push_cast
      ring

/-- While every callback so far leaves `total` below `max`, the timer is
still running. -/
theorem scrollLoop_running (s m : ℤ) :
    ∀ (fuel : ℕ) (total : ℤ), (∀ k : ℕ, 1 ≤ k → k ≤ fuel → total + k * s < m) →
      scrollLoop s m fuel total = none := by
  intro fuel
  induction fuel with
  | zero => intro total _; rfl
  | succ fuel ih =>
    intro total hbelow
    have hlt : ¬ (total + s ≥ m) := by
      have := hbelow 1 le_rfl (by omega)
      simp only [Nat.cast_one, one_mul] at this
      omega
    have hrec := ih (total + s) (by
      intro k hk1 hk2
      have := hbelow (k + 1) (by omega) (by omega)
      push_cast at this
      linarith)
    simp [scrollLoop, hlt, hrec]

theorem floor_le_roundNearestEven (y : ℚ) : ⌊y⌋ ≤ roundNearestEven y := by
  unfold roundNearestEven
  split_ifs <;> omega

theorem roundNearestEven_le_floor_succ (y : ℚ) : roundNearestEven y ≤ ⌊y⌋ + 1 := by
  unfold roundNearestEven
  split_ifs <;> omega

theorem le_roundNearestEven (y : ℚ) (n : ℤ) (h : (n : ℚ) ≤ y) : n ≤ roundNearestEven y :=
  le_trans (Int.le_floor.mpr h) (floor_le_roundNearestEven y)

theorem roundNearestEven_lt (y : ℚ) (n : ℤ) (h : y < (n : ℚ) - 1 / 2) :
    roundNearestEven y < n := by
  have hfl : (⌊y⌋ : ℚ) ≤ y := Int.floor_le y
  by_cases h1 : y - ⌊y⌋ < 1 / 2
  · have : (⌊y⌋ : ℚ) < n := by linarith
    have h2 : ⌊y⌋ < n := by exact_mod_cast this
    unfold roundNearestEven
    rw [if_pos h1]
    exact h2
  · have : (⌊y⌋ : ℚ) + 1 < n := by
      have := not_lt.mp h1
      linarith
    have h2 : ⌊y⌋ + 1 < n := by exact_mod_cast this
    exact lt_of_le_of_lt (roundNearestEven_le_floor_succ y) h2

theorem log_eq_of_binade (x : ℚ) (e : ℤ) (h1 : (2 : ℚ) ^ e ≤ x) (h2 : x < (2 : ℚ) ^ (e + 1)) :
    Int.log 2 |x| = e := by
  have hpos : 0 < x := lt_of_lt_of_le (zpow_pos (by norm_num) e) h1
  rw [abs_of_pos hpos]
  have ha : e ≤ Int.log 2 x := (Int.zpow_le_iff_le_log (by norm_num) hpos).mp (by exact_mod_cast h1)
  have hb : Int.log 2 x < e + 1 :=
    (Int.lt_zpow_iff_log_lt (by norm_num) hpos).mp (by exact_mod_cast h2)
  omega

theorem roundDouble_of_binade (x : ℚ) (e : ℤ) (h1 : (2 : ℚ) ^ e ≤ x)
    (h2 : x < (2 : ℚ) ^ (e + 1)) (he : -1022 ≤ e) :
    roundDouble x = (roundNearestEven (x * (2 : ℚ) ^ (52 - e)) : ℚ) * (2 : ℚ) ^ (e - 52) := by
  unfold roundDouble
  rw [log_eq_of_binade x e h1 h2, max_eq_left he]

theorem point8_eq : point8 = 3602879701896397 / 4503599627370496 := by
  unfold point8
  rw [roundDouble_of_binade (4 / 5) (-1) (by norm_num) (by norm_num) (by norm_num)]
  have hfl : ⌊(4 / 5 : ℚ) * (2 : ℚ) ^ (52 - (-1) : ℤ)⌋ = 7205759403792793 := by
    rw [Int.floor_eq_iff]
    norm_num
  have hr : roundNearestEven ((4 / 5 : ℚ) * (2 : ℚ) ^ (52 - (-1) : ℤ)) = 7205759403792794 := by
    unfold roundNearestEven
    rw [hfl]
    norm_num
  rw [hr]
  norm_num

/-- The floor of the double product of a natural height below `2^50` with
`0.8` is the floor of the exact product `4/5 * n`. -/
theorem floor_times08_nat (n : ℕ) (hn : n < 2 ^ 50) :
    ⌊times08 (n : ℚ)⌋ = ⌊(4 / 5 : ℚ) * n⌋ := by
  rcases Nat.eq_zero_or_pos n with h0 | hpos
  · subst h0
    simp [times08, roundDouble, roundNearestEven]
  set x : ℚ := (n : ℚ) * point8 with hx
  have hnq : (1 : ℚ) ≤ n := by exact_mod_cast hpos
  have hnq2 : (n : ℚ) < 2 ^ 50 := by exact_mod_cast hn
  have hxv : x = (4 / 5 : ℚ) * n + n / (5 * 2 ^ 52) := by
    rw [hx, point8_eq]
    ring
  have hxpos : 0 < x := by rw [hxv]; positivity
  -- the binade of the product
  obtain ⟨e, he1, he2⟩ : ∃ e : ℤ, (2 : ℚ) ^ e ≤ x ∧ x < (2 : ℚ) ^ (e + 1) :=
    ⟨Int.log 2 x, by exact_mod_cast Int.zpow_log_le_self (by norm_num) hxpos,
      by exact_mod_cast Int.lt_zpow_succ_log_self (by norm_num) x⟩
  have hxlt : x < (2 : ℚ) ^ (50 : ℤ) := by
    rw [hxv]
    norm_num
    nlinarith
  have hxge : (2 : ℚ) ^ (-1 : ℤ) ≤ x := by
    rw [hxv]
    norm_num
    nlinarith
  have hlo : -1 ≤ e := by
    by_contra hc
    have : e + 1 ≤ -1 := by omega
    have h3 : (2 : ℚ) ^ (e + 1) ≤ (2 : ℚ) ^ (-1 : ℤ) := zpow_le_zpow_right₀ (by norm_num) this
    linarith
  have hhi : e < 50 := by
    by_contra hc
    have : (50 : ℤ) ≤ e := by omega
    have h3 : (2 : ℚ) ^ (50 : ℤ) ≤ (2 : ℚ) ^ e := zpow_le_zpow_right₀ (by norm_num) this
    linarith
  unfold times08
  rw [← hx, roundDouble_of_binade x e he1 he2 (by omega)]
  -- the scaling factor is a natural power of two, at least 8
  obtain ⟨k, hk⟩ : ∃ k : ℕ, 52 - e = (k : ℤ) := ⟨(52 - e).toNat, by omega⟩
  have hk3 : 3 ≤ k := by omega
  have hP : (2 : ℚ) ^ (52 - e) = (2 : ℚ) ^ k := by rw [hk, zpow_natCast]
  have hPinv : (2 : ℚ) ^ (e - 52) = ((2 : ℚ) ^ k)⁻¹ := by
    have : e - 52 = -(k : ℤ) := by omega
    rw [this, zpow_neg, zpow_natCast]
  rw [hP, hPinv]
  have hPpos : (0 : ℚ) < (2 : ℚ) ^ k := by positivity
  have hP8 : (8 : ℚ) ≤ (2 : ℚ) ^ k := by
    have : (2 : ℚ) ^ 3 ≤ (2 : ℚ) ^ k := pow_le_pow_right₀ (by norm_num) hk3
    norm_num at this
    exact this
  -- the exact quotient
  obtain ⟨q, r, hdiv, hr4⟩ : ∃ q r : ℕ, 5 * q + r = 4 * n ∧ r ≤ 4 :=
    ⟨4 * n / 5, 4 * n % 5, Nat.div_add_mod _ _, by omega⟩
  have hdq : (5 : ℚ) * q + r = 4 * n := by exact_mod_cast hdiv
  have hr0 : (0 : ℚ) ≤ r := Nat.cast_nonneg _
  have hrq : (r : ℚ) ≤ 4 := by exact_mod_cast hr4
  have hq : ⌊(4 / 5 : ℚ) * n⌋ = (q : ℤ) := by
    rw [Int.floor_eq_iff]
    constructor
    · have : ((q : ℤ) : ℚ) = (q : ℚ) := by norm_cast
      rw [this]; linarith
    · have : ((q : ℤ) : ℚ) = (q : ℚ) := by norm_cast
      rw [this]; linarith
  rw [hq, Int.floor_eq_iff]
  have hqle : (q : ℚ) ≤ (4 / 5 : ℚ) * n := by linarith
  have hqgt : (4 / 5 : ℚ) * n - 4 / 5 ≤ q := by linarith
  have hgap : (3 / 20 : ℚ) ≤ (q : ℚ) + 1 - x := by
    rw [hxv]
    have : (n : ℚ) / (5 * 2 ^ 52) ≤ 1 / 20 := by
      rw [div_le_iff₀ (by positivity)]
      norm_num at hnq2 ⊢
      linarith
    linarith
  have hlow : (((q : ℤ) * 2 ^ k : ℤ) : ℚ) ≤ x * (2 : ℚ) ^ k := by
    push_cast
    have : (q : ℚ) ≤ x := by rw [hxv]; linarith [show (0 : ℚ) ≤ n / (5 * 2 ^ 52) by positivity]
    exact mul_le_mul_of_nonneg_right this hPpos.le
  have hupp : x * (2 : ℚ) ^ k < ((((q : ℤ) + 1) * 2 ^ k : ℤ) : ℚ) - 1 / 2 := by
    push_cast
    nlinarith
  have h1 := le_roundNearestEven _ _ hlow
  have h2 := roundNearestEven_lt _ _ hupp
  have h1q : (((q : ℤ) * 2 ^ k : ℤ) : ℚ) ≤ (roundNearestEven (x * (2 : ℚ) ^ k) : ℚ) := by
    exact_mod_cast h1
  have h2q : (roundNearestEven (x * (2 : ℚ) ^ k) : ℚ) < ((((q : ℤ) + 1) * 2 ^ k : ℤ) : ℚ) := by
    exact_mod_cast h2
  push_cast at h1q h2q ⊢
  constructor
  · rw [le_mul_inv_iff₀ hPpos]
    exact h1q
  · rw [mul_inv_lt_iff₀ hPpos]
    exact h2q

theorem scrollStep_nat (n : ℕ) (hn : n < 2 ^ 50) :
    scrollStep (n : ℚ) = max 400 ⌊(4 / 5 : ℚ) * n⌋ := by
  unfold scrollStep
  rw [floor_times08_nat n hn]

/-- C10 as stated fails. The height `501.24999999999994` is a double that the
validation accepts; the double product with `0.8` rounds up to `401`, so the
step of `autoScroll` is `401`, whereas `max(400, floor(0.8 * h))` in exact
arithmetic is `400`. -/
theorem scrollStep_fractional_height :
    roundDouble fractionalHeight = fractionalHeight ∧
    validateNumbers { exampleArgs with height := .fin fractionalHeight } = .ok () ∧
    scrollStep fractionalHeight = 401 ∧
    max 400 ⌊(4 / 5 : ℚ) * fractionalHeight⌋ = 400 := by
  refine ⟨?_, ?_, ?_, ?_⟩
  · unfold fractionalHeight
    rw [roundDouble_of_binade _ 8 (by norm_num) (by norm_num) (by norm_num)]
    have hfl : ⌊(8818083254763519 / 17592186044416 : ℚ) * (2 : ℚ) ^ (52 - 8 : ℤ)⌋ =
        8818083254763519 := by
      rw [Int.floor_eq_iff]
      norm_num
    have hr : roundNearestEven ((8818083254763519 / 17592186044416 : ℚ) *
        (2 : ℚ) ^ (52 - 8 : ℤ)) = 8818083254763519 := by
      unfold roundNearestEven
      rw [hfl]
      norm_num
    rw [hr]
    norm_num
  · simp [validateNumbers, exampleArgs, defaults, JSNum.isFinite, JSNum.lt, JSNum.le,
      fractionalHeight]
    norm_num
  · unfold scrollStep times08 fractionalHeight
    rw [point8_eq, roundDouble_of_binade _ 8 (by norm_num) (by norm_num) (by norm_num)]
    have hfl : ⌊(8818083254763519 / 17592186044416 * (3602879701896397 / 4503599627370496) : ℚ) *
        (2 : ℚ) ^ (52 - 8 : ℤ)⌋ = 7054466603810815 := by
      rw [Int.floor_eq_iff]
      norm_num
    have hr : roundNearestEven ((8818083254763519 / 17592186044416 *
        (3602879701896397 / 4503599627370496) : ℚ) * (2 : ℚ) ^ (52 - 8 : ℤ)) =
        7054466603810816 := by
      unfold roundNearestEven
      rw [hfl]
      norm_num
    rw [hr]
    have : ((7054466603810816 : ℤ) : ℚ) * (2 : ℚ) ^ (8 - 52 : ℤ) = 401 := by norm_num
    rw [this]
    norm_num
  · have : ⌊(4 / 5 : ℚ) * fractionalHeight⌋ = 400 := by
      unfold fractionalHeight
      rw [Int.floor_eq_iff]
      norm_num
    rw [this]
    rfl

/-- C10, amended. For every viewport height `h` (so for every accepted one,
`h >= 320`) and every scrollable height `m` (so for every `m >= 0`), the step
is `s = max(400, floor(h * 0.8))` with the product taken in double arithmetic:
the exact product of `h` and the double nearest to `4/5`, rounded to the
nearest double. For every integer height below `2^50` this is
`max(400, floor(4/5 * h))` in exact arithmetic. The step is at least 400, and
the scroll loop stops: with `n` the least positive integer such that
`n * s >= m`, `autoScroll` makes exactly `n` calls `scrollBy(0, s)`, then
waits 400 ms and scrolls to the top once, as soon as `n` callbacks have run,
and has not finished before. The distance `n * s` reached is at least `m`,
and the distance before the last scroll is below `m` when `n > 1`. -/
theorem autoScroll_terminates (h : ℚ) (m : ℤ) :
    scrollStep h = max 400 ⌊roundDouble (h * roundDouble (4 / 5))⌋ ∧
    (∀ k : ℕ, k < 2 ^ 50 → scrollStep (k : ℚ) = max 400 ⌊(4 / 5 : ℚ) * k⌋) ∧
    400 ≤ scrollStep h ∧
    ∃ n : ℕ, 1 ≤ n ∧ m ≤ n * scrollStep h ∧
      (∀ k : ℕ, 1 ≤ k → m ≤ k * scrollStep h → n ≤ k) ∧
      (1 < n → ((n : ℤ) - 1) * scrollStep h < m) ∧
      (∀ fuel, n ≤ fuel →
        autoScroll h m fuel =
          some (List.replicate n (.scrollBy (scrollStep h)) ++
            [.waitForTimeout 400, .scrollTo 0 0])) ∧
      (∀ fuel, fuel < n → autoScroll h m fuel = none) := by
  have hs := scrollStep_ge h
  refine ⟨rfl, scrollStep_nat, hs, ?_⟩
  simp only [autoScroll]
  generalize scrollStep h = s at hs
  have hex : ∃ n : ℕ, 1 ≤ n ∧ m ≤ n * s := by
    refine ⟨m.toNat + 1, by omega, ?_⟩
    have h1 : m ≤ (m.toNat : ℤ) := Int.self_le_toNat m
    have h2 : (0 : ℤ) ≤ (m.toNat : ℤ) := Int.ofNat_nonneg _
    push_cast
    nlinarith
  let n := Nat.find hex
  have hn : 1 ≤ n ∧ m ≤ n * s := Nat.find_spec hex
  have hmin : ∀ k : ℕ, 1 ≤ k → m ≤ k * s → n ≤ k := fun k hk1 hk2 =>
    Nat.find_min' hex ⟨hk1, hk2⟩
  have hbelow : ∀ k : ℕ, 1 ≤ k → k < n → 0 + (k : ℤ) * s < m := by
    intro k hk1 hk2
    by_contra hcon
    have := hmin k hk1 (by linarith)
    omega
  refine ⟨n, hn.1, hn.2, hmin, ?_, ?_, ?_⟩
  · intro h1
    have := hbelow (n - 1) (by omega) (by omega)
    have hc : ((n - 1 : ℕ) : ℤ) = (n : ℤ) - 1 := by
      have := hn.1
      push_cast [Nat.cast_sub this]
      ring
    rw [hc] at this
    linarith
  · intro fuel hfuel
    have := scrollLoop_stops s m n hn.1 0 fuel hfuel hbelow (by linarith [hn.2])
    simp [this]
  · intro fuel hfuel
    have := scrollLoop_running s m fuel 0 (fun k hk1 hk2 => hbelow k hk1 (by omega))
    simp [this]

/-- At the default viewport height 2200 the step is `floor(1760) = 1760`, and
at the least accepted height 320 it is `max(400, 256) = 400`. -/
theorem autoScroll_terminates_witness :
    scrollStep 2200 = 1760 ∧ scrollStep 320 = 400 := by
  have h1 := (autoScroll_terminates 0 0).2.1 2200 (by norm_num)
  have h2 := (autoScroll_terminates 0 0).2.1 320 (by norm_num)
  have f1 : ⌊(4 / 5 : ℚ) * ((2200 : ℕ) : ℚ)⌋ = 1760 := by
    rw [Int.floor_eq_iff]
    norm_num
  have f2 : ⌊(4 / 5 : ℚ) * ((320 : ℕ) : ℚ)⌋ = 256 := by
    rw [Int.floor_eq_iff]
    norm_num
  rw [f1] at h1
  rw [f2] at h2
  exact ⟨by simpa using h1, by simpa using h2⟩

/-- A viewport of height 2200 gives the step 1760: a page of scrollable height
5000 takes three scrolls, and is not done after two callbacks; a viewport of
height 320 gives the step 400, and an empty page still takes one scroll. -/
theorem autoScroll_example :
    autoScroll 2200 5000 3 =
      some [.scrollBy 1760, .scrollBy 1760, .scrollBy 1760, .waitForTimeout 400,
        .scrollTo 0 0] ∧
    autoScroll 2200 5000 2 = none ∧
    autoScroll 320 0 1 = some [.scrollBy 400, .waitForTimeout 400, .scrollTo 0 0] := by
  have f1 : ⌊(4 / 5 : ℚ) * ((2200 : ℕ) : ℚ)⌋ = 1760 := by
    rw [Int.floor_eq_iff]
    norm_num
  have f2 : ⌊(4 / 5 : ℚ) * ((320 : ℕ) : ℚ)⌋ = 256 := by
    rw [Int.floor_eq_iff]
    norm_num
  have h1 : scrollStep 2200 = 1760 := by
    have := scrollStep_nat 2200 (by norm_num)
    rw [f1] at this
    simpa using this
  have h2 : scrollStep 320 = 400 := by
    have := scrollStep_nat 320 (by norm_num)
    rw [f2] at this
    simpa using this
  refine ⟨?_, ?_, ?_⟩
  · simp [autoScroll, h1, scrollLoop, List.replicate]
  · simp [autoScroll, h1, scrollLoop]
  · simp [autoScroll, h2, scrollLoop, List.replicate]

theorem notFinite_or_lt_iff (x : JSNum) (c : ℚ) :
    (!x.isFinite || x.lt (.fin c)) = true ↔
      ((∀ q, x ≠ .fin q) ∨ ∃ q, x = .fin q ∧ q < c) := by
  cases x <;> simp [JSNum.isFinite, JSNum.lt]

theorem notFinite_or_le_iff (x : JSNum) (c : ℚ) :
    (!x.isFinite || x.le (.fin c)) = true ↔
      ((∀ q, x ≠ .fin q) ∨ ∃ q, x = .fin q ∧ q ≤ c) := by
  cases x <;> simp [JSNum.isFinite, JSNum.le]

theorem validateNumbers_error_iff (args : Parsed) :
    (∃ m, validateNumbers args = .error m) ↔
      ((!args.delay.isFinite || args.delay.lt (.fin 0)) = true ∨
       (!args.timeout.isFinite || args.timeout.le (.fin 0)) = true ∨
       (!args.width.isFinite || args.width.lt (.fin 320)) = true ∨
       (!args.height.isFinite || args.height.lt (.fin 320)) = true) := by
  unfold validateNumbers
  by_cases h1 : (!args.delay.isFinite || args.delay.lt (.fin 0)) = true
  · simp [h1]
  by_cases h2 : (!args.timeout.isFinite || args.timeout.le (.fin 0)) = true
  · simp [h1, h2]
  by_cases h3 : (!args.width.isFinite || args.width.lt (.fin 320)) = true
  · simp [h1, h2, h3]
  by_cases h4 : (!args.height.isFinite || args.height.lt (.fin 320)) = true
  · simp [h1, h2, h3, h4]
  · simp [h1, h2, h3, h4]

theorem validateNumbers_cases (args : Parsed) :
    validateNumbers args = .ok () ∨ ∃ m, validateNumbers args = .error m := by
  rcases h : validateNumbers args with m | u
  · exact Or.inr ⟨m, rfl⟩
  · exact Or.inl rfl

/-- C1. For a parsed record whose URL is non-empty and parses and whose format
is `png` or `pdf`: the numeric checks reject it exactly when delay is not
finite or below 0, or timeout is not finite or at most 0, or width is not
finite or below 320, or height is not finite or below 320. When they reject,
validation fails with their message, and the run (help not being requested)
consists of the tagged error on standard error and exit status 1, with no
browser launch and no other event; when they do not, the validation yields
the parsed URL. -/
theorem validation_spec (env : Env) (args : Parsed) (u : URLRecord)
    (hurl : args.url ≠ [])
    (hparse : env.parseURL args.url = .ok u)
    (hfmt : args.format = lit "png" ∨ args.format = lit "pdf") :
    ((∃ m, validateNumbers args = .error m) ↔
      (((∀ q, args.delay ≠ .fin q) ∨ ∃ q, args.delay = .fin q ∧ q < 0) ∨
       ((∀ q, args.timeout ≠ .fin q) ∨ ∃ q, args.timeout = .fin q ∧ q ≤ 0) ∨
       ((∀ q, args.width ≠ .fin q) ∨ ∃ q, args.width = .fin q ∧ q < 320) ∨
       ((∀ q, args.height ≠ .fin q) ∨ ∃ q, args.height = .fin q ∧ q < 320))) ∧
    (∀ m, validateNumbers args = .error m →
      validate env args = ([], .error m) ∧
      (args.help = false →
        report (mainWith env args) = [.stderr (toolTag ++ m), .exit 1])) ∧
    (validateNumbers args = .ok () → validate env args = ([], .ok u)) := by
  refine ⟨?_, ?_, ?_⟩
  · rw [validateNumbers_error_iff, notFinite_or_lt_iff, notFinite_or_le_iff,
      notFinite_or_lt_iff, notFinite_or_lt_iff]
  · intro m hm
    have hv : validate env args = ([], .error m) := by
      simp [validate, hurl, hparse, hfmt, hm]
    refine ⟨hv, ?_⟩
    intro hhelp
    simp [mainWith, hhelp, prepare, hv, report]
  · intro hok
    simp [validate, hurl, hparse, hfmt, hok]

/-- The boundary cases of the numeric checks in `sampleEnv`: width 320 and
height 320 are accepted, width 319 and height 319 are rejected, timeout 0 is
rejected, delay 0 is accepted. -/
theorem validation_spec_witness :
    validateNumbers { exampleArgs with width := .fin 320, height := .fin 320 } = .ok () ∧
    (∃ m, validateNumbers { exampleArgs with width := .fin 319 } = .error m) ∧
    (∃ m, validateNumbers { exampleArgs with height := .fin 319 } = .error m) ∧
    (∃ m, validateNumbers { exampleArgs with timeout := .fin 0 } = .error m) ∧
    validateNumbers { exampleArgs with delay := .fin 0 } = .ok () ∧
    report (mainWith sampleEnv { exampleArgs with width := .fin 319 }) =
      [.stderr (lit "[capture-page] --width must be at least 320"), .exit 1] := by
  have hu : sampleEnv.parseURL (lit "https://example.com") =
      .ok ⟨lit "https://example.com/", lit "example.com"⟩ := by decide
  have hne : lit "https://example.com" ≠ [] := by decide
  have key := fun (a : Parsed) (h2 : a.url ≠ [])
      (h3 : sampleEnv.parseURL a.url = .ok ⟨lit "https://example.com/", lit "example.com"⟩)
      (h4 : a.format = lit "png" ∨ a.format = lit "pdf") =>
    validation_spec sampleEnv a _ h2 h3 h4
  have accept : ∀ a : Parsed, a.url ≠ [] →
      sampleEnv.parseURL a.url = .ok ⟨lit "https://example.com/", lit "example.com"⟩ →
      (a.format = lit "png" ∨ a.format = lit "pdf") →
      ¬ (((∀ q, a.delay ≠ .fin q) ∨ ∃ q, a.delay = .fin q ∧ q < 0) ∨
       ((∀ q, a.timeout ≠ .fin q) ∨ ∃ q, a.timeout = .fin q ∧ q ≤ 0) ∨
       ((∀ q, a.width ≠ .fin q) ∨ ∃ q, a.width = .fin q ∧ q < 320) ∨
       ((∀ q, a.height ≠ .fin q) ∨ ∃ q, a.height = .fin q ∧ q < 320)) →
      validateNumbers a = .ok () := by
    intro a h2 h3 h4 hn
    rcases validateNumbers_cases a with h | h
    · exact h
    · exact absurd ((key a h2 h3 h4).1.mp h) hn
  refine ⟨?_, ?_, ?_, ?_, ?_, ?_⟩
  · apply accept _ hne hu (Or.inl rfl)
    simp [exampleArgs, defaults]
  · refine (key _ hne hu (Or.inl rfl)).1.mpr ?_
    simp [exampleArgs, defaults]
    norm_num
  · refine (key _ hne hu (Or.inl rfl)).1.mpr ?_
    simp [exampleArgs, defaults]
    norm_num
  · refine (key _ hne hu (Or.inl rfl)).1.mpr ?_
    simp [exampleArgs, defaults]
  · apply accept _ hne hu (Or.inl rfl)
    simp [exampleArgs, defaults]
    norm_num
  · have h := (key { exampleArgs with width := .fin 319 } hne hu (Or.inl rfl)).2.1
      (lit "--width must be at least 320") (by decide)
    rw [h.2 rfl]
    decide

theorem parseStep_snd (cv : Conv) (key : JSString) (next : Option JSString) (p : Parsed) :
    (parseStep cv key next p).2 = takesValue key next := by
  have e1 : decide (lit "--help" ∈ valueFlags) = false := by decide
  have e2 : decide (lit "-h" ∈ valueFlags) = false := by decide
  have e3 : decide (lit "--no-auto-scroll" ∈ valueFlags) = false := by decide
  have m1 : decide (lit "--url" ∈ valueFlags) = true := by decide
  have m2 : decide (lit "--format" ∈ valueFlags) = true := by decide
  have m3 : decide (lit "--output" ∈ valueFlags) = true := by decide
  have m4 : decide (lit "--delay" ∈ valueFlags) = true := by decide
  have m5 : decide (lit "--timeout" ∈ valueFlags) = true := by decide
  have m6 : decide (lit "--width" ∈ valueFlags) = true := by decide
  have m7 : decide (lit "--height" ∈ valueFlags) = true := by decide
  unfold parseStep takesValue
  split_ifs with h1 h2 h3 h4 h5 h6 h7 h8 h9
  · rcases h1 with rfl | rfl
    · rw [e1]; rfl
    · rw [e2]; rfl
  · subst h2; rw [e3]; rfl
  · obtain ⟨rfl, ht⟩ := h3; rw [ht, m1]; rfl
  · obtain ⟨rfl, ht⟩ := h4; rw [ht, m2]; rfl
  · obtain ⟨rfl, ht⟩ := h5; rw [ht, m3]; rfl
  · obtain ⟨rfl, ht⟩ := h6; rw [ht, m4]; rfl
  · obtain ⟨rfl, ht⟩ := h7; rw [ht, m5]; rfl
  · obtain ⟨rfl, ht⟩ := h8; rw [ht, m6]; rfl
  · obtain ⟨rfl, ht⟩ := h9; rw [ht, m7]; rfl
  · by_cases ht : truthy next = true
    · have hk : key ∉ valueFlags := by
        intro hmem
        simp only [valueFlags, List.mem_cons, List.mem_singleton, List.not_mem_nil,
          or_false] at hmem
        rcases hmem with h | h | h | h | h | h | h
        · exact h3 ⟨h, ht⟩
        · exact h4 ⟨h, ht⟩
        · exact h5 ⟨h, ht⟩
        · exact h6 ⟨h, ht⟩
        · exact h7 ⟨h, ht⟩
        · exact h8 ⟨h, ht⟩
        · exact h9 ⟨h, ht⟩
      rw [decide_eq_false hk]; rfl
    · have hf : truthy next = false := by simpa using ht
      rw [hf, Bool.and_false]

theorem parseStep_help (cv : Conv) (key : JSString) (next : Option JSString) (p : Parsed)
    (hk : key = lit "--help" ∨ key = lit "-h") : (parseStep cv key next p).1.help = true := by
  simp [parseStep, hk]

theorem parseStep_help_sticky (cv : Conv) (key : JSString) (next : Option JSString)
    (p : Parsed) (hp : p.help = true) : (parseStep cv key next p).1.help = true := by
  unfold parseStep
  split_ifs <;> simp [hp]

theorem parseLoop_help_sticky (cv : Conv) :
    ∀ (l : List JSString) (skip : Bool) (p : Parsed), p.help = true →
      (parseLoop cv l skip p).help = true := by
  intro l
  induction l with
  | nil => intro skip p hp; simpa [parseLoop] using hp
  | cons key rest ih =>
    intro skip p hp
    cases skip with
    | true => simpa [parseLoop] using ih false p hp
    | false =>
      simp only [parseLoop]
      exact ih _ _ (parseStep_help_sticky cv key _ p hp)

theorem parseLoop_help (cv : Conv) :
    ∀ (l : List JSString) (skip : Bool) (p : Parsed) (i : Nat) (h : JSString),
      l[i]? = some h → (h = lit "--help" ∨ h = lit "-h") → readAsKey l skip i = true →
      (parseLoop cv l skip p).help = true := by
  intro l
  induction l with
  | nil => intro skip p i h hi; simp at hi
  | cons key rest ih =>
    intro skip p i h hi hh hkey
    cases i with
    | zero =>
      simp only [List.getElem?_cons_zero, Option.some.injEq] at hi
      subst hi
      cases skip with
      | true => simp [readAsKey] at hkey
      | false =>
        simp only [parseLoop]
        exact parseLoop_help_sticky cv rest _ _ (parseStep_help cv key _ p hh)
    | succ i =>
      simp only [List.getElem?_cons_succ] at hi
      cases skip with
      | true =>
        simp only [readAsKey] at hkey
        simpa [parseLoop] using ih false p i h hi hh hkey
      | false =>
        simp only [readAsKey] at hkey
        simp only [parseLoop, parseStep_snd]
        exact ih _ _ i h hi hh hkey

/-- An element is read as a key when it is the first, or when its predecessor
is not a value flag. -/
theorem readAsKey_of_pred :
    ∀ (l : List JSString) (skip : Bool) (j : Nat), j < l.length →
      (j = 0 → skip = false) →
      (∀ p, 0 < j → l[j - 1]? = some p → p ∉ valueFlags) →
      readAsKey l skip j = true := by
  intro l
  induction l with
  | nil => intro skip j hj; simp at hj
  | cons key rest ih =>
    intro skip j hj h0 hpred
    cases j with
    | zero => simp [readAsKey, h0 rfl]
    | succ j =>
      have hj2 : j < rest.length := by simpa using hj
      have hpred2 : ∀ p, 0 < j → rest[j - 1]? = some p → p ∉ valueFlags := by
        intro p hpos hp
        apply hpred p (by omega)
        obtain ⟨k, rfl⟩ : ∃ k, j = k + 1 := ⟨j - 1, by omega⟩
        simpa using hp
      cases skip with
      | true =>
        simp only [readAsKey]
        exact ih false j hj2 (fun _ => rfl) hpred2
      | false =>
        simp only [readAsKey]
        refine ih _ j hj2 ?_ hpred2
        intro hj0
        subst hj0
        have hk : key ∉ valueFlags := hpred key (by omega) (by simp)
        simp [takesValue, hk]

theorem report_help (env : Env) (args : Parsed) (h : args.help = true) :
    report (mainWith env args) = [.usage, .exit 0] := by
  simp [mainWith, h, report]

/-- C6 as stated fails. The argument list `--url --help` contains the token
`--help`, but the parser takes it as the value of `--url`: the run prints no
usage text, reports an invalid URL and exits with status 1. -/
theorem help_token_taken_as_value :
    lit "--help" ∈ [lit "--url", lit "--help"] ∧
    (parseArgs sampleEnv.cv [lit "--url", lit "--help"]).help = false ∧
    run sampleEnv [lit "--url", lit "--help"] =
      [.stderr (lit "[capture-page] Invalid URL: --help"), .exit 1] := by
  refine ⟨by decide, by decide, by decide⟩

/-- C6, amended. When the argument list holds `--help` or `-h` at an index
that the parser reads as a flag (not as the value of a value flag before it),
`parseArgs` sets `help` and the run is the usage text followed by exit status
0, with no validation and no other event, whatever the environment and the
other arguments are. The first token is always read as a flag, and so is every
token whose predecessor is not a value flag. -/
theorem help_spec (env : Env) (argv : List JSString) (i : Nat) (h : JSString)
    (hi : argv[i]? = some h) (hh : h = lit "--help" ∨ h = lit "-h")
    (hkey : readAsKey argv false i = true) :
    (parseArgs env.cv argv).help = true ∧
    run env argv = [.usage, .exit 0] ∧
    (∀ j, j < argv.length →
      (∀ p, 0 < j → argv[j - 1]? = some p → p ∉ valueFlags) →
      readAsKey argv false j = true) := by
  have hhelp : (parseArgs env.cv argv).help = true :=
    parseLoop_help env.cv argv false defaults i h hi hh hkey
  refine ⟨hhelp, report_help env _ hhelp, ?_⟩
  intro j hj hpred
  exact readAsKey_of_pred argv false j hj (fun _ => rfl) hpred

/-- In `sampleEnv`, the run of `--format gif -h --width 1`: help wins over
the missing URL, the unsupported format and the out-of-bound width. -/
theorem help_spec_witness :
    run sampleEnv [lit "--format", lit "gif", lit "-h", lit "--width", lit "1"] =
      [.usage, .exit 0] :=
  (help_spec sampleEnv [lit "--format", lit "gif", lit "-h", lit "--width", lit "1"] 2
    (lit "-h") (by decide) (Or.inr rfl) (by decide)).2.1

theorem valueFlag_ne_nil (flag : JSString) (hflag : flag ∈ valueFlags) : flag ≠ [] := by
  intro h
  subst h
  exact absurd hflag (by decide)

theorem valueFlag_not_toggle (flag : JSString) (hflag : flag ∈ valueFlags) :
    ¬ (flag = lit "--help" ∨ flag = lit "-h") ∧ flag ≠ lit "--no-auto-scroll" := by
  refine ⟨?_, ?_⟩
  · rintro (h | h) <;> subst h <;> exact absurd hflag (by decide)
  · intro h
    subst h
    exact absurd hflag (by decide)

/-- A value flag with nothing after it changes nothing. -/
theorem parseStep_trailing (cv : Conv) (flag : JSString) (p : Parsed)
    (hflag : flag ∈ valueFlags) : parseStep cv flag none p = (p, false) := by
  obtain ⟨h1, h2⟩ := valueFlag_not_toggle flag hflag
  simp [parseStep, h1, h2, truthy]

/-- A key that is not a value flag is handled without looking at `next`. -/
theorem parseStep_next_irrelevant (cv : Conv) (key : JSString) (n1 n2 : Option JSString)
    (p : Parsed) (hk : key ∉ valueFlags) : parseStep cv key n1 p = parseStep cv key n2 p := by
  simp only [valueFlags, List.mem_cons, List.mem_singleton, List.not_mem_nil, or_false,
    not_or] at hk
  obtain ⟨k1, k2, k3, k4, k5, k6, k7⟩ := hk
  simp [parseStep, k1, k2, k3, k4, k5, k6, k7]

theorem parseLoop_trailing (cv : Conv) (flag : JSString) (hflag : flag ∈ valueFlags) :
    ∀ (xs : List JSString) (skip : Bool) (p : Parsed),
      readAsKey (xs ++ [flag]) skip xs.length = true →
      parseLoop cv (xs ++ [flag]) skip p = parseLoop cv xs skip p := by
  intro xs
  induction xs with
  | nil =>
    intro skip p hkey
    cases skip with
    | true => simp [readAsKey] at hkey
    | false => simp [parseLoop, parseStep_trailing cv flag p hflag]
  | cons key rest ih =>
    intro skip p hkey
    cases skip with
    | true =>
      simp only [List.cons_append, List.length_cons, readAsKey] at hkey
      simp only [List.cons_append, parseLoop]
      exact ih false p hkey
    | false =>
      cases rest with
      | nil =>
        have ht : truthy (some flag) = true := by
          cases hf : flag with
          | nil => exact absurd hf (valueFlag_ne_nil flag hflag)
          | cons a as => rfl
        have hkey2 : takesValue key (some flag) = false := by
          simpa [readAsKey] using hkey
        have hk : key ∉ valueFlags := by
          intro hmem
          simp [takesValue, hmem, ht] at hkey2
        have h2 : (parseStep cv key none p).2 = false := by
          rw [parseStep_snd]
          simp [takesValue, truthy]
        show parseLoop cv [key, flag] false p = parseLoop cv [key] false p
        simp only [parseLoop, List.head?_cons, List.head?_nil]
        rw [parseStep_next_irrelevant cv key (some flag) none p hk, h2]
        simp [parseLoop, parseStep_trailing cv flag _ hflag]
      | cons next rest2 =>
        have hkey2 : readAsKey (next :: (rest2 ++ [flag])) (takesValue key (some next))
            (rest2.length + 1) = true := by
          simpa [readAsKey] using hkey
        show parseLoop cv (key :: next :: (rest2 ++ [flag])) false p =
          parseLoop cv (key :: next :: rest2) false p
        simp only [parseLoop, List.head?_cons, parseStep_snd]
        exact ih _ _ hkey2

/-- C7 as stated fails. In `--url --format` the last token is a value flag,
but it is taken as the value of `--url`: the record differs from the one for
`--url` alone, whose `url` stays empty. -/
theorem trailing_flag_taken_as_value :
    lit "--format" ∈ valueFlags ∧
    (parseArgs sampleEnv.cv [lit "--url", lit "--format"]).url = lit "--format" ∧
    (parseArgs sampleEnv.cv [lit "--url"]).url = [] ∧
    parseArgs sampleEnv.cv [lit "--url", lit "--format"] ≠
      parseArgs sampleEnv.cv [lit "--url"] := by
  refine ⟨by decide, by decide, by decide, by decide⟩

/-- C7, amended. When the last token of the argument list is a value flag and
the parser reads it as a flag (it is not taken as the value of a value flag
before it), it is ignored: `parseArgs` returns the same record, so the same
value in every field, as for the list without that last token. The last token
is read as a flag whenever it is the only token or the token before it is not
a value flag. -/
theorem trailing_flag_spec (cv : Conv) (xs : List JSString) (flag : JSString)
    (hflag : flag ∈ valueFlags)
    (hkey : readAsKey (xs ++ [flag]) false xs.length = true) :
    parseArgs cv (xs ++ [flag]) = parseArgs cv xs ∧
    ((∀ p, xs.getLast? = some p → p ∉ valueFlags) →
      readAsKey (xs ++ [flag]) false xs.length = true) := by
  refine ⟨parseLoop_trailing cv flag hflag xs false defaults hkey, ?_⟩
  intro hlast
  refine readAsKey_of_pred (xs ++ [flag]) false xs.length (by simp) (fun _ => rfl) ?_
  intro p hpos hp
  apply hlast p
  have hlt : xs.length - 1 < xs.length := by omega
  rw [List.getElem?_append_left hlt] at hp
  rw [List.getLast?_eq_getElem?]
  exact hp

/-- In `sampleEnv`, the parse of `--format pdf --width`: the
trailing `--width` leaves the record as `--format pdf` gives it. -/
theorem trailing_flag_spec_witness :
    parseArgs sampleEnv.cv [lit "--format", lit "pdf", lit "--width"] =
      parseArgs sampleEnv.cv [lit "--format", lit "pdf"] ∧
    (parseArgs sampleEnv.cv [lit "--format", lit "pdf", lit "--width"]).width = .fin 1440 :=
  ⟨(trailing_flag_spec sampleEnv.cv [lit "--format", lit "pdf"] (lit "--width")
      (by decide) (by decide)).1, by decide⟩

/-- The steps before the launch print at most the usage text and make at most
one `mkdir` call. -/
theorem prepare_trace (env : Env) (args : Parsed) :
    (prepare env args).1 = [] ∨ (prepare env args).1 = [.usage] ∨
      ∃ d, (prepare env args).1 = [.mkdir d] := by
  have hv : (validate env args).1 = [.usage] ∧ (∃ m, (validate env args).2 = .error m) ∨
      (validate env args).1 = [] := by
    unfold validate
    by_cases h0 : args.url = []
    · rw [if_pos h0]
      exact Or.inl ⟨rfl, _, rfl⟩
    · rw [if_neg h0]
      rcases hp : env.parseURL args.url with e | u
      · exact Or.inr rfl
      · rcases hn : validateNumbers args with m | u2 <;>
          by_cases hf : (args.format = lit "png" ∨ args.format = lit "pdf") <;>
          simp [hf]
  unfold prepare
  rcases hval : validate env args with ⟨tr, r⟩
  rw [hval] at hv
  rcases r with m | u
  · rcases hv with ⟨h, _⟩ | h
    · exact Or.inr (Or.inl h)
    · exact Or.inl h
  · have htr : tr = [] := by
      rcases hv with ⟨_, m, hm⟩ | h
      · simp at hm
      · exact h
    subst htr
    simp only
    split
    · exact Or.inl rfl
    · split
      · exact Or.inr (Or.inr ⟨_, rfl⟩)
      · exact Or.inr (Or.inr ⟨_, rfl⟩)

theorem prepare_trace_quiet (env : Env) (args : Parsed) :
    ∀ e ∈ (prepare env args).1, e.isClose = false ∧ e.isStderr = false ∧
      e.isExit = false ∧ e.isStdout = false ∧ e.isLaunch = false := by
  intro e he
  rcases prepare_trace env args with h | h | ⟨d, h⟩ <;> rw [h] at he
  · simp at he
  · simp only [List.mem_singleton] at he
    subst he
    simp [Event.isClose, Event.isStderr, Event.isExit, Event.isStdout, Event.isLaunch]
  · simp only [List.mem_singleton] at he
    subst he
    simp [Event.isClose, Event.isStderr, Event.isExit, Event.isStdout, Event.isLaunch]

theorem launchBrowser_trace (launch : JSString → Except JSString Browser) :
    ∀ e ∈ (launchBrowser launch).1, e.isClose = false ∧ e.isStderr = false ∧
      e.isExit = false ∧ e.isStdout = false := by
  intro e he
  have hev : e = .launch (lit "msedge") ∨ e = .launch (lit "chrome") := by
    rcases h1 : launch (lit "msedge") with e1 | b1
    · rcases h2 : launch (lit "chrome") with e2 | b2
      · rw [launchBrowser_none launch e1 e2 h1 h2] at he
        simpa using he
      · rw [launchBrowser_second launch e1 b2 h1 h2] at he
        simpa using he
    · rw [launchBrowser_first launch b1 h1] at he
      exact Or.inl (by simpa using he)
  rcases hev with rfl | rfl <;> exact ⟨rfl, rfl, rfl, rfl⟩

theorem runSteps_trace_mem :
    ∀ (steps : List (Event × Except JSString Unit)) (e : Event),
      e ∈ (runSteps steps).1 → e ∈ steps.map Prod.fst := by
  intro steps
  induction steps with
  | nil => intro e he; simp [runSteps] at he
  | cons st rest ih =>
    intro e he
    obtain ⟨ev, r⟩ := st
    rcases r with m | u
    · simp only [runSteps, List.mem_singleton] at he
      simp [he]
    · simp only [runSteps, List.mem_cons] at he
      rcases he with h | h
      · simp [h]
      · simp only [List.map_cons, List.mem_cons]
        exact Or.inr (ih e h)

theorem captureSteps_events (env : Env) (args : Parsed) (href out : JSString) :
    ∀ e ∈ (captureSteps env args href out).map Prod.fst,
      e.isClose = false ∧ e.isStderr = false ∧ e.isExit = false ∧ e.isLaunch = false := by
  unfold captureSteps
  by_cases ha : args.autoScroll = true <;>
    by_cases hd : args.delay.gt (.fin 0) = true <;>
    by_cases hf : args.format = lit "png" <;>
    simp [ha, hd, hf, Event.isClose, Event.isStderr, Event.isExit, Event.isLaunch]

theorem body_trace_quiet (env : Env) (args : Parsed) (href out : JSString) :
    ∀ e ∈ (runSteps (captureSteps env args href out)).1,
      e.isClose = false ∧ e.isStderr = false ∧ e.isExit = false ∧ e.isLaunch = false :=
  fun e he => captureSteps_events env args href out e (runSteps_trace_mem _ e he)

theorem launched_iff (env : Env) (args : Parsed) :
    launched env args = true ↔
      args.help = false ∧ (∃ x, (prepare env args).2 = .ok x) ∧
        ∃ b, (launchBrowser env.launch).2 = .ok b := by
  unfold launched
  rcases hp : (prepare env args).2 with m | x <;>
    rcases hl : (launchBrowser env.launch).2 with m2 | b <;>
    cases hh : args.help <;> simp

/-- The run when the launch is reached and succeeds: the events before the
launch, the launches, the body of the `try` block, `close`, and the report. -/
theorem mainWith_launched (env : Env) (args : Parsed) (u : URLRecord) (out : JSString)
    (b : Browser) (hh : args.help = false) (hp : (prepare env args).2 = .ok (u, out))
    (hl : (launchBrowser env.launch).2 = .ok b) :
    mainWith env args =
      ((prepare env args).1 ++ (launchBrowser env.launch).1 ++
        ((runSteps (captureSteps env args u.href out)).1 ++ [.close b]),
       (session env args u.href out b).2) := by
  unfold mainWith
  rw [if_neg (by simp [hh])]
  rcases hpe : prepare env args with ⟨tr, r⟩
  rw [hpe] at hp
  simp only at hp
  subst hp
  rcases hle : launchBrowser env.launch with ⟨ltr, r2⟩
  rw [hle] at hl
  simp only at hl
  subst hl
  simp [session]

theorem mainWith_not_launched (env : Env) (args : Parsed) (hn : launched env args = false) :
    ∀ e ∈ (mainWith env args).1, e.isClose = false := by
  intro e he
  unfold mainWith at he
  by_cases hh : args.help = true
  · rw [if_pos hh] at he
    simp only [List.mem_singleton] at he
    subst he
    rfl
  · rw [if_neg hh] at he
    have hq := prepare_trace_quiet env args
    have hlq := launchBrowser_trace env.launch
    rcases hpe : prepare env args with ⟨tr, r⟩
    rw [hpe] at he hq
    rcases r with m | ⟨u, out⟩
    · exact (hq e he).1
    · rcases hle : launchBrowser env.launch with ⟨ltr, r2⟩
      rw [hle] at he hlq
      rcases r2 with m2 | b
      · simp only [List.mem_append] at he
        rcases he with h | h
        · exact (hq e h).1
        · exact (hlq e h).1
      · exfalso
        have : launched env args = true := by
          rw [launched_iff]
          exact ⟨by simpa using hh, ⟨_, by rw [hpe]⟩, ⟨b, by rw [hle]⟩⟩
        rw [hn] at this
        exact Bool.false_ne_true this

theorem report_filter_close (r : List Event × Completion) :
    (report r).filter Event.isClose = r.1.filter Event.isClose := by
  obtain ⟨tr, c⟩ := r
  cases c <;> simp [report, List.filter_append, List.filter_cons, Event.isClose]

theorem filter_eq_nil_of_forall {p : Event → Bool} {l : List Event}
    (h : ∀ e ∈ l, p e = false) : l.filter p = [] := by
  rw [List.filter_eq_nil_iff]
  intro e he
  simp [h e he]

/-- C2. In every run in which `launchBrowser` is reached and returns a
session, `browser.close` is called exactly once, on that session, whatever
the calls of the `try` block and `close` itself do; in every run in which
`launchBrowser` is not reached (help, a failed check, a failed `mkdir`) or
fails, `browser.close` is never called. -/
theorem close_exactly_once (env : Env) (argv : List JSString) :
    ((run env argv).filter Event.isClose).length =
      (if launched env (parseArgs env.cv argv) = true then 1 else 0) ∧
    (∀ b, launched env (parseArgs env.cv argv) = true →
      (launchBrowser env.launch).2 = .ok b →
      (run env argv).filter Event.isClose = [.close b]) ∧
    (launched env (parseArgs env.cv argv) = true ↔
      (parseArgs env.cv argv).help = false ∧
        (∃ x, (prepare env (parseArgs env.cv argv)).2 = .ok x) ∧
        ∃ b, (launchBrowser env.launch).2 = .ok b) := by
  have hclosed : ∀ b, launched env (parseArgs env.cv argv) = true →
      (launchBrowser env.launch).2 = .ok b →
      (run env argv).filter Event.isClose = [.close b] := by
    intro b hl hb
    obtain ⟨hh, ⟨⟨u, out⟩, hp⟩, _⟩ := (launched_iff env _).mp hl
    rw [run, main, report_filter_close, mainWith_launched env _ u out b hh hp hb]
    simp only [List.filter_append]
    rw [filter_eq_nil_of_forall (fun e he => (prepare_trace_quiet env _ e he).1),
      filter_eq_nil_of_forall (fun e he => (launchBrowser_trace env.launch e he).1),
      filter_eq_nil_of_forall (fun e he => (body_trace_quiet env _ _ _ e he).1)]
    simp [List.filter_cons, Event.isClose]
  refine ⟨?_, hclosed, launched_iff env _⟩
  by_cases hl : launched env (parseArgs env.cv argv) = true
  · rw [if_pos hl]
    obtain ⟨_, _, b, hb⟩ := (launched_iff env _).mp hl
    rw [hclosed b hl hb]
    rfl
  · rw [if_neg hl]
    have hl2 : launched env (parseArgs env.cv argv) = false := by simpa using hl
    rw [run, main, report_filter_close,
      filter_eq_nil_of_forall (mainWith_not_launched env _ hl2)]
    rfl

theorem runSteps_ok :
    ∀ (steps : List (Event × Except JSString Unit)),
      (runSteps steps).2 = .ok () → (runSteps steps).1 = steps.map Prod.fst := by
  intro steps
  induction steps with
  | nil => intro _; rfl
  | cons st rest ih =>
    intro h
    obtain ⟨ev, r⟩ := st
    rcases r with m | u
    · simp [runSteps] at h
    · simp only [runSteps] at h
      simp [runSteps, ih h]

theorem captureSteps_last (env : Env) (args : Parsed) (href out : JSString) :
    ∃ pre, (captureSteps env args href out).map Prod.fst = pre ++ [.stdout out] := by
  unfold captureSteps
  rw [List.map_append]
  exact ⟨_, rfl⟩

/-- C9. On the success path the code reports before it releases the browser:
in `sampleEnv` the run of `--url https://example.com` prints the output path
on standard output and only then calls `browser.close`. In `closeFailsEnv`,
where that `close` throws, the same arguments give a run that has printed the
output path and then reports the error of `close` and exits with status 1. -/
theorem stdout_before_close :
    run sampleEnv [lit "--url", lit "https://example.com"] =
      [.mkdir (lit "C:/captures"),
       .launch (lit "msedge"),
       .newContext (.fin 1440) (.fin 2200),
       .newPage,
       .goto (lit "https://example.com/") (.fin 60),
       .scrollDown (.fin 2200),
       .scrollPause,
       .scrollTop,
       .delayPause (.fin 2),
       .screenshot (lit "C:/captures/example.com-2026-11-04T12-34-56-789Z.png"),
       .stdout (lit "C:/captures/example.com-2026-11-04T12-34-56-789Z.png"),
       .close ⟨1⟩,
       .exit 0] ∧
    run closeFailsEnv [lit "--url", lit "https://example.com"] =
      [.mkdir (lit "C:/captures"),
       .launch (lit "msedge"),
       .newContext (.fin 1440) (.fin 2200),
       .newPage,
       .goto (lit "https://example.com/") (.fin 60),
       .scrollDown (.fin 2200),
       .scrollPause,
       .scrollTop,
       .delayPause (.fin 2),
       .screenshot (lit "C:/captures/example.com-2026-11-04T12-34-56-789Z.png"),
       .stdout (lit "C:/captures/example.com-2026-11-04T12-34-56-789Z.png"),
       .close ⟨1⟩,
       .stderr (lit "[capture-page] Target closed"),
       .exit 1] := by
  refine ⟨by decide, by decide⟩

/-- The place of `browser.close` in the trace of a run that launched the
browser: some events, then `close` on the launched session, then the report.
No write to standard error and no exit comes before `close`, so on every
failure path the error message is printed after `close`. After `close` comes
either exit status 0 alone or the tagged error and exit status 1; when it is
exit status 0, the output path was printed on standard output as the last
event before `close`. -/
theorem close_before_report (env : Env) (argv : List JSString) (b : Browser)
    (hl : launched env (parseArgs env.cv argv) = true)
    (hb : (launchBrowser env.launch).2 = .ok b) :
    ∃ before after u out,
      (prepare env (parseArgs env.cv argv)).2 = .ok (u, out) ∧
      run env argv = before ++ .close b :: after ∧
      (∀ e ∈ before, e.isStderr = false ∧ e.isExit = false ∧ e.isClose = false) ∧
      (after = [.exit 0] ∨ ∃ m, after = [.stderr (toolTag ++ m), .exit 1]) ∧
      (after = [.exit 0] → ∃ pre, before = pre ++ [.stdout out]) := by
  obtain ⟨hh, ⟨⟨u, out⟩, hp⟩, _⟩ := (launched_iff env _).mp hl
  have hm := mainWith_launched env _ u out b hh hp hb
  have hquiet : ∀ e ∈ (prepare env (parseArgs env.cv argv)).1 ++ (launchBrowser env.launch).1 ++
      (runSteps (captureSteps env (parseArgs env.cv argv) u.href out)).1,
      e.isStderr = false ∧ e.isExit = false ∧ e.isClose = false := by
    intro e he
    simp only [List.mem_append] at he
    rcases he with (h | h) | h
    · have := prepare_trace_quiet env _ e h
      exact ⟨this.2.1, this.2.2.1, this.1⟩
    · have := launchBrowser_trace env.launch e h
      exact ⟨this.2.1, this.2.2.1, this.1⟩
    · have := body_trace_quiet env _ _ _ e h
      exact ⟨this.2.1, this.2.2.1, this.1⟩
  rcases hc : (session env (parseArgs env.cv argv) u.href out b).2 with _ | m | c
  · refine ⟨_, [.exit 0], u, out, hp, ?_, hquiet, Or.inl rfl, ?_⟩
    · rw [run, main, hm, hc]
      simp [report]
    · intro _
      have hbody : (runSteps (captureSteps env (parseArgs env.cv argv) u.href out)).2 =
          .ok () := by
        unfold session at hc
        simp only at hc
        rcases hcl : env.close with m1 | u1
        · rw [hcl] at hc; simp at hc
        · rw [hcl] at hc
          rcases hbd : (runSteps (captureSteps env (parseArgs env.cv argv) u.href out)).2
            with m2 | u2
          · rw [hbd] at hc; simp at hc
          · rfl
      obtain ⟨pre, hpre⟩ := captureSteps_last env (parseArgs env.cv argv) u.href out
      refine ⟨(prepare env (parseArgs env.cv argv)).1 ++ (launchBrowser env.launch).1 ++ pre, ?_⟩
      rw [runSteps_ok _ hbody, hpre]
      simp [List.append_assoc]
  · refine ⟨_, [.stderr (toolTag ++ m), .exit 1], u, out, hp, ?_, hquiet,
      Or.inr ⟨m, rfl⟩, ?_⟩
    · rw [run, main, hm, hc]
      simp [report]
    · intro h
      simp at h
  · exfalso
    unfold session at hc
    simp only at hc
    rcases hcl : env.close with m1 | u1
    · rw [hcl] at hc; simp at hc
    · rw [hcl] at hc
      rcases hbd : (runSteps (captureSteps env (parseArgs env.cv argv) u.href out)).2
        with m2 | u2
      · rw [hbd] at hc; simp at hc
      · rw [hbd] at hc; simp at hc

/-- In `gotoFailsEnv`, the run of `--url https://example.com`:
navigation fails, `close` is called, and only then is the error printed. -/
theorem close_before_report_witness :
    run gotoFailsEnv [lit "--url", lit "https://example.com"] =
      [.mkdir (lit "C:/captures"),
       .launch (lit "msedge"),
       .newContext (.fin 1440) (.fin 2200),
       .newPage,
       .goto (lit "https://example.com/") (.fin 60),
       .close ⟨1⟩,
       .stderr (lit "[capture-page] Timeout 60000ms exceeded."),
       .exit 1] ∧
    ∃ before after u out,
      (prepare gotoFailsEnv (parseArgs gotoFailsEnv.cv
        [lit "--url", lit "https://example.com"])).2 = .ok (u, out) ∧
      run gotoFailsEnv [lit "--url", lit "https://example.com"] =
        before ++ .close ⟨1⟩ :: after ∧
      (∀ e ∈ before, e.isStderr = false ∧ e.isExit = false ∧ e.isClose = false) ∧
      (after = [.exit 0] ∨ ∃ m, after = [.stderr (toolTag ++ m), .exit 1]) ∧
      (after = [.exit 0] → ∃ pre, before = pre ++ [.stdout out]) :=
  ⟨by decide,
   close_before_report gotoFailsEnv [lit "--url", lit "https://example.com"] ⟨1⟩
     (by decide) (by decide)⟩

theorem mainWith_trace_quiet (env : Env) (args : Parsed) :
    ∀ e ∈ (mainWith env args).1, e.isStderr = false ∧ e.isExit = false := by
  intro e he
  unfold mainWith at he
  by_cases hh : args.help = true
  · rw [if_pos hh] at he
    simp only [List.mem_singleton] at he
    subst he
    exact ⟨rfl, rfl⟩
  · rw [if_neg hh] at he
    have hq := prepare_trace_quiet env args
    have hlq := launchBrowser_trace env.launch
    rcases hpe : prepare env args with ⟨tr, r⟩
    rw [hpe] at he hq
    rcases r with m | ⟨u, out⟩
    · exact ⟨(hq e he).2.1, (hq e he).2.2.1⟩
    · rcases hle : launchBrowser env.launch with ⟨ltr, r2⟩
      rw [hle] at he hlq
      rcases r2 with m2 | b
      · simp only [List.mem_append] at he
        rcases he with h | h
        · exact ⟨(hq e h).2.1, (hq e h).2.2.1⟩
        · exact ⟨(hlq e h).2.1, (hlq e h).2.2.1⟩
      · simp only [session, List.mem_append, List.mem_singleton] at he
        rcases he with (h | h) | h | h
        · exact ⟨(hq e h).2.1, (hq e h).2.2.1⟩
        · exact ⟨(hlq e h).2.1, (hlq e h).2.2.1⟩
        · have := body_trace_quiet env args _ _ e h
          exact ⟨this.2.1, this.2.2.1⟩
        · subst h
          exact ⟨rfl, rfl⟩

theorem validateNumbers_message (args : Parsed) (m : JSString)
    (h : validateNumbers args = .error m) : LF ∉ m := by
  unfold validateNumbers at h
  split_ifs at h <;> simp only [Except.error.injEq] at h <;> subst h <;> decide

theorem validate_message (env : Env) (args : Parsed) (m : JSString)
    (h : (validate env args).2 = .error m) :
    (LF ∈ m ↔ args.url ≠ [] ∧ (∃ e, env.parseURL args.url = .error e) ∧ LF ∈ args.url) := by
  unfold validate at h
  by_cases h0 : args.url = []
  · rw [if_pos h0] at h
    simp only [Except.error.injEq] at h
    subst h
    have : LF ∉ lit "Missing required argument: --url" := by decide
    simp [h0, this]
  · rw [if_neg h0] at h
    rcases hp : env.parseURL args.url with e | u
    · rw [hp] at h
      simp only [Except.error.injEq] at h
      subst h
      have : LF ∉ lit "Invalid URL: " := by decide
      simp [h0, this]
    · rw [hp] at h
      by_cases hf : (args.format = lit "png" ∨ args.format = lit "pdf")
      · rcases hn : validateNumbers args with m2 | u2
        · simp only [hf, not_true_eq_false, if_false, hn, Except.error.injEq] at h
          subst h
          simp [validateNumbers_message args m2 hn]
        · simp [hf, hn] at h
      · simp only [hf, not_false_eq_true, if_true, Except.error.injEq] at h
        subst h
        have : LF ∉ lit "--format must be one of: png, pdf" := by decide
        simp [this]

theorem mainWith_validate_error (env : Env) (args : Parsed) (m : JSString)
    (hh : args.help = false) (h : (validate env args).2 = .error m) :
    (mainWith env args).2 = .threw m := by
  unfold mainWith
  rw [if_neg (by simp [hh])]
  have hp : (prepare env args).2 = .error m := by
    unfold prepare
    rcases hv : validate env args with ⟨tr, r⟩
    rw [hv] at h
    simp only at h
    subst h
    rfl
  rcases hpe : prepare env args with ⟨tr, r⟩
  rw [hpe] at hp
  simp only at hp
  subst hp
  rfl

theorem mainWith_launch_error (env : Env) (args : Parsed) (x : URLRecord × JSString)
    (e1 e2 : JSString) (hh : args.help = false) (hp : (prepare env args).2 = .ok x)
    (h1 : env.launch (lit "msedge") = .error e1) (h2 : env.launch (lit "chrome") = .error e2) :
    (mainWith env args).2 =
      .threw (launchInstruction ++ [LF] ++ (lit "Microsoft Edge: " ++ e1) ++ [LF] ++
        (lit "Google Chrome: " ++ e2)) := by
  unfold mainWith
  rw [if_neg (by simp [hh])]
  rcases hpe : prepare env args with ⟨tr, r⟩
  rw [hpe] at hp
  simp only at hp
  subst hp
  obtain ⟨u, out⟩ := x
  simp only [launchBrowser_none env.launch e1 e2 h1 h2]

/-- C8 as stated fails. In `noBrowserEnv`, where neither channel launches, the
run of `--url https://example.com` fails with a message of three lines on
standard error. -/
theorem launch_failure_message_multiline :
    run noBrowserEnv [lit "--url", lit "https://example.com"] =
      [.mkdir (lit "C:/captures"),
       .launch (lit "msedge"),
       .launch (lit "chrome"),
       .stderr (lit ("[capture-page] Unable to launch a Chromium browser. " ++
         "Ensure Edge or Chrome is installed.\nMicrosoft Edge: msedge not found\n" ++
         "Google Chrome: chrome not found")),
       .exit 1] ∧
    LF ∈ lit ("Unable to launch a Chromium browser. " ++
         "Ensure Edge or Chrome is installed.\nMicrosoft Edge: msedge not found\n" ++
         "Google Chrome: chrome not found") := by
  refine ⟨by decide, by decide⟩

/-- C8, amended. In every run in which `main` fails with an error of message
`m`, the run writes to standard error once, the tool tag followed by `m`, and
then exits with status 1; nothing before that writes to standard error or
exits. When the failure is a validation failure (missing URL, invalid URL,
unsupported format, numeric bound), `m` has a line break only in the
invalid-URL case and only when the URL argument itself has one. When both
launches fail, `m` is the instruction line, a line break, the Edge line, a
line break and the Chrome line, so it is not a single line. -/
theorem failure_report (env : Env) (argv : List JSString) (m : JSString)
    (hfail : (main env argv).2 = .threw m) :
    run env argv = (main env argv).1 ++ [.stderr (toolTag ++ m), .exit 1] ∧
    (∀ e ∈ (main env argv).1, e.isStderr = false ∧ e.isExit = false) ∧
    (∀ m2, (validate env (parseArgs env.cv argv)).2 = .error m2 →
      m = m2 ∧
      (LF ∈ m ↔ (parseArgs env.cv argv).url ≠ [] ∧
        (∃ e, env.parseURL (parseArgs env.cv argv).url = .error e) ∧
        LF ∈ (parseArgs env.cv argv).url)) ∧
    (∀ x e1 e2, (prepare env (parseArgs env.cv argv)).2 = .ok x →
      env.launch (lit "msedge") = .error e1 → env.launch (lit "chrome") = .error e2 →
      m = launchInstruction ++ [LF] ++ (lit "Microsoft Edge: " ++ e1) ++ [LF] ++
        (lit "Google Chrome: " ++ e2) ∧ LF ∈ m) := by
  have hh : (parseArgs env.cv argv).help = false := by
    by_contra hcon
    have ht : (parseArgs env.cv argv).help = true := by simpa using hcon
    simp [main, mainWith, ht] at hfail
  refine ⟨?_, mainWith_trace_quiet env _, ?_, ?_⟩
  · unfold run
    rcases hm : main env argv with ⟨tr, c⟩
    rw [hm] at hfail
    simp only at hfail
    subst hfail
    rfl
  · intro m2 hv
    have h2 := mainWith_validate_error env _ m2 hh hv
    have hmm : m = m2 := by
      unfold main at hfail
      rw [h2] at hfail
      simpa using hfail.symm
    subst hmm
    exact ⟨rfl, validate_message env _ m hv⟩
  · intro x e1 e2 hp h1 h2
    have h3 := mainWith_launch_error env _ x e1 e2 hh hp h1 h2
    have hmm : m = launchInstruction ++ [LF] ++ (lit "Microsoft Edge: " ++ e1) ++ [LF] ++
        (lit "Google Chrome: " ++ e2) := by
      unfold main at hfail
      rw [h3] at hfail
      simpa using hfail.symm
    subst hmm
    exact ⟨rfl, by simp⟩

/-- In `sampleEnv`, the run of the empty argument list: the usage
text, then the single line about the missing URL, then exit status 1. -/
theorem failure_report_witness :
    run sampleEnv [] =
      [.usage, .stderr (lit "[capture-page] Missing required argument: --url"), .exit 1] ∧
    LF ∉ lit "Missing required argument: --url" := by
  have h := failure_report sampleEnv [] (lit "Missing required argument: --url") (by decide)
  refine ⟨?_, ?_⟩
  · rw [h.1]
    decide
  · intro hlf
    have h2 := (h.2.2.1 (lit "Missing required argument: --url") (by decide)).2.mp hlf
    exact h2.1 (by decide)

end CapturePage
